import Mathlib

/-!
# Elementwise fusion-group detection

A shallow embedding of
`paddle/fluid/framework/ir/fusion_group/elementwise_group_detector.cc`
together with theorems about the classifiers it defines.

Conventions of the embedding

* A `const Node*` that is only read through is an `Option Node`, the node it
  points to; `none` is the null pointer. Where the identity of the node
  matters, in the groups the detector returns, a `Node*` is a `NodePtr`, which
  carries the address as well.
* `std::string` is a `String`, read as its sequence of characters
  (`String.data`), and `std::vector<int64_t>` is a `List Int`.
* `std::unordered_set<std::string>` is a `List String`; `find(x) != end()`
  is list membership and `empty()` is `List.isEmpty`.
* `size_t` values are natural numbers reduced modulo `2 ^ 64`.
* A function that can leave the ordinary control flow returns
  `Except Fault _`: `Fault.InvalidArgument` is the exception raised by
  `PADDLE_ENFORCE_EQ`, `Fault.NullDereference` is a member access through a
  null `Node*`.
* The file-level static `elementwise_op_types` and the singleton
  `OperationMap::Instance()` are the two fields of `State`, which is passed
  explicitly.
-/

namespace paddle.framework.ir

/-- Modelled from the spec: the enumeration `proto::VarType::Type`, whose
declaration is not part of the sources at hand. The four enumerators the
detector names are kept; any other enumerator (`INT32`, `SELECTED_ROWS`, ...)
is `other code` with its numeric code. -/
inductive VarType where
  | FP16
  | FP32
  | FP64
  | LOD_TENSOR
  | other (code : Nat)
deriving DecidableEq

/-- The enumerator `proto::VarType::INT32` (numeric code 2). -/
def VarType.INT32 : VarType := VarType.other 2

/-- Modelled from the spec: the part of `VarDesc` the detector reads, namely
the tensor kind (`GetType`), the element type (`GetDataType`) and the shape
(`GetShape`). -/
structure VarDesc where
  GetType : VarType
  GetDataType : VarType
  GetShape : List Int
deriving DecidableEq

/-- Modelled from the spec: the part of `OpDesc` the detector reads, the
operator type name (`Type()`). -/
structure OpDesc where
  type : String
deriving DecidableEq

/-- The two kinds of `Node`. -/
inductive NodeKind where
  | kOperation
  | kVariable
deriving DecidableEq

/-- Modelled from the spec: the part of `ir::Node` the detector reads. A node
has a kind, an operator description and a variable description (either may be
null) and two ordered lists of `Node*`, each of which may be null. -/
inductive Node where
  | mk (kind : NodeKind) (op_desc : Option OpDesc) (var_desc : Option VarDesc)
      (inputs : List (Option Node)) (outputs : List (Option Node))

/-- Accessor `n->IsOp()`. -/
def Node.IsOp : Node → Bool
  | .mk k _ _ _ _ => k == NodeKind.kOperation

/-- Accessor `n->IsVar()`. -/
def Node.IsVar : Node → Bool
  | .mk k _ _ _ _ => k == NodeKind.kVariable

/-- Accessor `n->Op()`: the operator description, `none` when null. -/
def Node.Op : Node → Option OpDesc
  | .mk _ o _ _ _ => o

/-- Accessor `n->Var()`: the variable description, `none` when null. -/
def Node.Var : Node → Option VarDesc
  | .mk _ _ v _ _ => v

/-- Member `n->inputs`. -/
def Node.inputs : Node → List (Option Node)
  | .mk _ _ _ i _ => i

/-- Member `n->outputs`. -/
def Node.outputs : Node → List (Option Node)
  | .mk _ _ _ _ o => o

/-- The ways a call can leave the ordinary control flow. -/
inductive Fault where
  | InvalidArgument
  | NullDereference
deriving DecidableEq

namespace fusion_group

/-- The mutable state the detector touches: its own file-level static
`elementwise_op_types` and the registry behind
`OperationMap::Instance().Find`. -/
structure State where
  elementwise_op_types : List String
  Find : Nat → List String

/-- Source `GetElementwiseOpTypes`: fills the static from the registry when it
is empty and returns (a reference to) the static. The first component is the
value seen through the returned reference, the second the state afterwards. -/
def GetElementwiseOpTypes (st : State) : List String × State :=
  if st.elementwise_op_types.isEmpty then
    (st.Find 0, { st with elementwise_op_types := st.Find 0 })
  else
    (st.elementwise_op_types, st)

/-- Source `IsSpecifiedOp`. -/
def IsSpecifiedOp (op_types : List String) (n : Option Node) : Bool :=
  match n with
  | none => false
  | some nd =>
    if nd.IsOp then
      match nd.Op with
      | none => false
      | some op =>
        if nd.outputs.length > 0 then
          if op.type ∈ op_types then true else false
        else false
    else false

/-- The value `std::string::npos` of a 64-bit `size_t`. -/
def npos : Nat := 2 ^ 64 - 1

/-- The descending search of `std::string::rfind`: tries position `pos`, then
`pos - 1`, ... down to `0`; the first position at which `pat` occurs in `s` is
returned, `npos` if there is none. -/
def rfindLoop (s pat : List Char) : Nat → Nat
  | 0 => if (s.take pat.length) = pat then 0 else npos
  | p + 1 =>
    if ((s.drop (p + 1)).take pat.length) = pat then p + 1 else rfindLoop s pat p

/-- Library `std::string::rfind(pat)`: the highest position at which `pat`
occurs in `s`, `npos` if it does not occur. -/
def rfind (s pat : List Char) : Nat :=
  if pat.length ≤ s.length then rfindLoop s pat (s.length - pat.length) else npos

/-- Source `IsGradOp`. The enforce raises `InvalidArgument` unless the node is
a non-null operator node with an operator description; the subtraction of the
two lengths is `size_t` arithmetic. -/
def IsGradOp (n : Option Node) : Except Fault Bool :=
  match n with
  | none => .error Fault.InvalidArgument
  | some nd =>
    if nd.IsOp then
      match nd.Op with
      | none => .error Fault.InvalidArgument
      | some op =>
        let suffix : String := "_grad"
        let op_type : String := op.type
        let pos := rfind op_type.data suffix.data
        .ok (pos != npos &&
          pos == (op_type.data.length + 2 ^ 64 - suffix.data.length) % 2 ^ 64)
    else .error Fault.InvalidArgument

/-- Source `IsEqualAndNotEmpty`. -/
def IsEqualAndNotEmpty (l r : List Int) : Bool :=
  l.length != 0 && r.length != 0 && l == r

/-- One of the two `for` loops of `IsFusionGroupOp` (they differ only in the
names of their variables), started with the current values of `is_first` and
of the data type. `.ok none` is `return false` from inside the loop;
`.ok (some t)` is the loop running to its end with data type `t`. -/
def dataTypeLoop : List (Option Node) → Bool → VarType → Except Fault (Option VarType)
  | [], _, data_type => .ok (some data_type)
  | none :: _, _, _ => .error Fault.NullDereference
  | some node :: rest, is_first, data_type =>
    match node.Var with
    | none => .ok none
    | some var =>
      if var.GetType ≠ VarType.LOD_TENSOR then .ok none
      else if is_first then dataTypeLoop rest false var.GetDataType
      else if data_type ≠ var.GetDataType then .ok none
      else dataTypeLoop rest false data_type

/-- The final test of `IsFusionGroupOp` on one data type. -/
def isFloatType (t : VarType) : Bool :=
  t == VarType.FP32 || t == VarType.FP64 || t == VarType.FP16

/-- Source `GroupDetector::IsFusionGroupOp`. -/
def IsFusionGroupOp (n : Option Node) : Except Fault Bool :=
  match n with
  | none => .ok false
  | some nd =>
    if !(nd.IsOp && nd.Op.isSome) then .ok false
    else
      match dataTypeLoop nd.inputs true VarType.FP32 with
      | .error e => .error e
      | .ok none => .ok false
      | .ok (some i_data_type) =>
        match dataTypeLoop nd.outputs true VarType.FP32 with
        | .error e => .error e
        | .ok none => .ok false
        | .ok (some o_data_type) =>
          if !(isFloatType i_data_type) || !(isFloatType o_data_type) then .ok false
          else .ok true

/-- The `for` loop of `IsElementwiseOp` from index `i` on, with the current
value of `shape_0`; the result is the value `IsElementwiseOp` returns. -/
def shapeLoop : List (Option Node) → Nat → List Int → Bool
  | [], _, _ => true
  | none :: _, _, _ => false
  | some in_i :: rest, i, shape_0 =>
    if in_i.IsVar then
      match in_i.Var with
      | none => false
      | some var =>
        let shape_i := var.GetShape
        if i == 0 then shapeLoop rest (i + 1) shape_i
        else if !(IsEqualAndNotEmpty shape_0 shape_i) then false
        else shapeLoop rest (i + 1) shape_0
    else false

/-- Source `ElementwiseGroupDetector::IsElementwiseOp`: the Boolean it returns
and the state after the call to `GetElementwiseOpTypes`. -/
def IsElementwiseOp (n : Option Node) (st : State) : Bool × State :=
  let r := GetElementwiseOpTypes st
  if IsSpecifiedOp r.1 n then
    match n with
    | none => (false, r.2)
    | some nd => (shapeLoop nd.inputs 0 [], r.2)
  else (false, r.2)

/-- The type of the predicate handed to the subgraph detector: a call may read
and fill the static, and may fault. -/
abbrev Teller := Option Node → State → Except Fault (Bool × State)

/-- The lambda `teller` of `ElementwiseGroupDetector::operator()`:
`IsFusionGroupOp(n) && IsElementwiseOp(n)`, the right operand evaluated only
when the left one is true. -/
def teller : Teller := fun n st =>
  match IsFusionGroupOp n with
  | .error e => .error e
  | .ok false => .ok (false, st)
  | .ok true => .ok (IsElementwiseOp n st)

/-- A `Node*` as it is stored in a returned group: the address, which is the
identity of the node (two different nodes have different addresses even when
their contents are equal), together with the node found at that address
(`none` for the null pointer). -/
structure NodePtr where
  addr : Nat
  node : Option Node

/-- The type of a subgraph extractor over graphs of type `Graph`: given the
graph and a predicate it produces the ordered list of groups, possibly calling
the predicate (and thereby touching the state) on the way. -/
abbrev Extractor (Graph : Type) :=
  Graph → Teller → State → Except Fault (List (List NodePtr) × State)

/-- Source `ElementwiseGroupDetector::operator()`, with the external
`SubgraphDetector` as the parameter `SubgraphDetector`. -/
def ElementwiseGroupDetector.call {Graph : Type} (SubgraphDetector : Extractor Graph)
    (graph : Graph) (st : State) : Except Fault (List (List NodePtr) × State) :=
  SubgraphDetector graph teller st

/-! ## Vocabulary of the specification -/

/-- The variable description reached through a `Node*` of an operand list:
`none` for a null pointer and for a node that carries no description. -/
def varOf (v : Option Node) : Option VarDesc :=
  match v with
  | none => none
  | some node => node.Var

/-- The operand `v` has a variable description, is of dense-tensor kind
(`LOD_TENSOR`) and has element type `t`. -/
def denseOfType (t : VarType) (v : Option Node) : Bool :=
  match varOf v with
  | none => false
  | some var => var.GetType == VarType.LOD_TENSOR && var.GetDataType == t

/-- Conditions (b)-(f) of the eligibility rule for one operand list, in the
words of the specification: every variable is of dense-tensor kind, all of
them share one element type, and that type is `fp16`, `fp32` or `fp64`. -/
def UniformFloatDense (vars : List (Option Node)) : Prop :=
  ∃ t, isFloatType t = true ∧ ∀ v ∈ vars, denseOfType t v = true

/-- The guard `n && n->IsOp() && n->Op()` for a non-null `n`: the node is of
operator kind and carries an operator description. -/
def validOp (nd : Node) : Bool := nd.IsOp && nd.Op.isSome

/-- The eligibility rule as the specification words it, conditions (a)-(f):
at least one input and one output, and each operand list uniformly dense with
one floating-point element type. -/
def EligibleAsSpecified (nd : Node) : Prop :=
  nd.inputs ≠ [] ∧ nd.outputs ≠ [] ∧
    UniformFloatDense nd.inputs ∧ UniformFloatDense nd.outputs

/-- A dense variable node with the given element type and shape. -/
def denseVar (t : VarType) (shape : List Int) : Node :=
  Node.mk NodeKind.kVariable none (some ⟨VarType.LOD_TENSOR, t, shape⟩) [] []

/-- A variable node without a variable description. -/
def bareVar : Node := Node.mk NodeKind.kVariable none none [] []

/-- An operator node with the given type name and operand lists. -/
def opNode (type : String) (inputs outputs : List (Option Node)) : Node :=
  Node.mk NodeKind.kOperation (some ⟨type⟩) none inputs outputs

/-- The operator `relu` with one fp32 input and one fp32 output, both of shape
`[2, 3]`. -/
def reluNode : Node :=
  opNode "relu" [some (denseVar VarType.FP32 [2, 3])] [some (denseVar VarType.FP32 [2, 3])]

/-- The shape `IsElementwiseOp` reads through an input pointer: defined when
the pointer is non-null and points to a variable-kind node that carries a
variable description. -/
def shapeOf (v : Option Node) : Option (List Int) :=
  match v with
  | none => none
  | some node => if node.IsVar then node.Var.map VarDesc.GetShape else none

/-- The shape of the first input, when there is one and it has a shape. -/
def firstShape (inputs : List (Option Node)) : Option (List Int) :=
  match inputs with
  | [] => none
  | v :: _ => shapeOf v

/-- Condition (b) of the elementwise rule as the specification words it:
every input variable has a non-empty shape equal to the first input's
shape. -/
def AllShapesMatchFirst (inputs : List (Option Node)) : Prop :=
  ∀ v ∈ inputs, ∃ sh, shapeOf v = some sh ∧ sh ≠ [] ∧ firstShape inputs = some sh

/-- The condition the `for` loop of `IsElementwiseOp` checks: every input is a
variable with a description, and every input after the first has a non-empty
shape equal to the first input's shape. -/
def LaterShapesMatchFirst (inputs : List (Option Node)) : Prop :=
  (∀ v ∈ inputs, (shapeOf v).isSome = true) ∧
    ∀ v ∈ inputs.tail, ∃ sh, shapeOf v = some sh ∧ sh ≠ [] ∧ firstShape inputs = some sh

/-- The state in which the static is still empty and the registry lists
`elementwise_add` and `relu` in category 0. -/
def freshState : State :=
  { elementwise_op_types := []
    Find := fun type => if type = 0 then ["elementwise_add", "relu"] else [] }

/-- The elementwise rule as the specification words it, conditions (a) and
(b): the type name is in the elementwise-type set and every input has a
non-empty shape equal to the first input's shape. -/
def ElementwiseAsSpecified (types : List String) (type : String)
    (inputs : List (Option Node)) : Prop :=
  type ∈ types ∧ AllShapesMatchFirst inputs

/-- The operator `elementwise_add` with two inputs of shape `[4, 4]` and one
output. -/
def addSameShapes : Node :=
  opNode "elementwise_add"
    [some (denseVar VarType.FP32 [4, 4]), some (denseVar VarType.FP32 [4, 4])]
    [some (denseVar VarType.FP32 [4, 4])]

/-- The operator `elementwise_add` with inputs of shapes `[4, 4]` and `[4, 1]`
and one output. -/
def addMixedShapes : Node :=
  opNode "elementwise_add"
    [some (denseVar VarType.FP32 [4, 4]), some (denseVar VarType.FP32 [4, 1])]
    [some (denseVar VarType.FP32 [4, 4])]

/-- The guard `n && n->IsOp() && n->Op()` on a `const Node*`: the pointer is
non-null and points to an operator node with an operator description. -/
def isValidOpPtr (n : Option Node) : Bool :=
  match n with
  | none => false
  | some nd => validOp nd

/-- The operator `elementwise_add` with two inputs of shape `[4, 4]` and one
output of the different shape `[4, 1]`. -/
def addOtherOutputShape : Node :=
  opNode "elementwise_add"
    [some (denseVar VarType.FP32 [4, 4]), some (denseVar VarType.FP32 [4, 4])]
    [some (denseVar VarType.FP32 [4, 1])]

/-- The operator `elementwise_add` with inputs of shapes `[4, 1]` and `[4, 4]`,
the inputs of `addMixedShapes` in the other order. -/
def addMixedShapesSwapped : Node :=
  opNode "elementwise_add"
    [some (denseVar VarType.FP32 [4, 1]), some (denseVar VarType.FP32 [4, 4])]
    [some (denseVar VarType.FP32 [4, 4])]

/-- What happens to the static and the registry over time: a call of
`GetElementwiseOpTypes`, or a change of the registry to a new `Find`. -/
inductive Event where
  | call
  | update (find : Nat → List String)

/-- The number of calls of `OperationMap::Instance().Find` one call of
`GetElementwiseOpTypes` makes in state `st`: one when the branch guarded by
`elementwise_op_types.empty()` is taken, none otherwise. -/
def findCalls (st : State) : Nat :=
  if st.elementwise_op_types.isEmpty then 1 else 0

/-- The run of a sequence of events from state `st`: the total number of
registry queries made by the calls, and the sets the calls returned, in
order. -/
def runEvents : List Event → State → Nat × List (List String)
  | [], _ => (0, [])
  | Event.update find :: rest, st => runEvents rest { st with Find := find }
  | Event.call :: rest, st =>
    let r := GetElementwiseOpTypes st
    let tail := runEvents rest r.2
    (findCalls st + tail.1, r.1 :: tail.2)

/-- The state at process start when the registry lists nothing in category 0:
the static is empty. -/
def emptyRegistryState : State :=
  { elementwise_op_types := [], Find := fun _ => [] }

/-- Modelled from the spec: the dataflow graph as the subgraph extractor reads
it (class `Graph` and `SubgraphDetector` are not part of the sources at
hand). The graph stores its operator nodes; the position of a node is its
address. `feeds i j` says that an output variable of the operator at address
`i` is an input variable of the operator at address `j`. -/
structure Graph where
  ops : List Node
  feeds : Nat → Nat → Bool

/-- The pointer to the operator node stored at address `i` of the graph. -/
def Graph.ptr (g : Graph) (i : Nat) : NodePtr :=
  { addr := i, node := g.ops[i]? }

/-- There is an operator node at address `i` of the graph and it satisfies
`P`. -/
def Graph.sat (g : Graph) (P : Node → Bool) (i : Nat) : Prop :=
  ∃ nd, g.ops[i]? = some nd ∧ P nd = true

/-- The operator nodes at addresses `i` and `j` both satisfy `P` and are
joined by a variable node, in either direction. -/
def Graph.linked (g : Graph) (P : Node → Bool) (i j : Nat) : Prop :=
  g.sat P i ∧ g.sat P j ∧ (g.feeds i j = true ∨ g.feeds j i = true)

/-- Connected in the subgraph induced by the operator nodes that satisfy `P`:
joined by a path every operator on which satisfies `P`. -/
def Graph.connected (g : Graph) (P : Node → Bool) : Nat → Nat → Prop :=
  Relation.ReflTransGen (g.linked P)

/-- Modelled from the spec: what section 6 requires of the list of groups an
extractor returns for the predicate `P`. Every group is non-empty and consists
of pointers to operator nodes of the graph that satisfy `P`; the members of a
group are connected in the induced subgraph (never through an operator that
fails `P`); a group is maximal; no node is reported in two groups; and every
maximal set of at least two nodes is reported (whether single nodes are
reported is left open). Nodes are told apart by their address, not by their
contents. -/
structure MaximalGroups (g : Graph) (P : Node → Bool)
    (groups : List (List NodePtr)) : Prop where
  nonempty : ∀ G ∈ groups, G ≠ []
  members : ∀ G ∈ groups, ∀ p ∈ G, p = g.ptr p.addr ∧ g.sat P p.addr
  connected : ∀ G ∈ groups, ∀ p ∈ G, ∀ q ∈ G, g.connected P p.addr q.addr
  maximal : ∀ G ∈ groups, ∀ p ∈ G, ∀ j, g.connected P p.addr j → g.ptr j ∈ G
  disjoint : groups.Pairwise (fun G H => ∀ p ∈ G, ∀ q ∈ H, p.addr ≠ q.addr)
  reported : ∀ i, g.sat P i → (∃ j, j ≠ i ∧ g.connected P i j) →
    ∃ G ∈ groups, g.ptr i ∈ G

/-- The stateful predicate `t` decides the pure predicate `P` on the operator
nodes of `g`: in every state that satisfies `Inv` it answers `P nd` without a
fault and leaves a state that satisfies `Inv`. -/
def Decides (t : Teller) (g : Graph) (Inv : State → Prop) (P : Node → Bool) : Prop :=
  ∀ nd ∈ g.ops, ∀ s, Inv s → ∃ s', t (some nd) s = .ok (P nd, s') ∧ Inv s'

/-- Modelled from the spec: the extractor `E` obeys the contract of section 6
for the graph `g`, the predicate `t` and the start state `st`: whichever pure
predicate `t` decides from `st` on, `E` returns groups that are the maximal
groups for it. An extractor that obeys the contract everywhere obeys it
here. -/
def ContractAt (E : Extractor Graph) (g : Graph) (t : Teller) (st : State) : Prop :=
  ∀ (Inv : State → Prop) (P : Node → Bool), Decides t g Inv P → Inv st →
    ∃ groups st', E g t st = .ok (groups, st') ∧ MaximalGroups g P groups

/-- The linear chain `A -> B -> C`: three operator nodes, at the addresses 0,
1 and 2, `A` feeding `B` and `B` feeding `C`. The three nodes may have equal
contents. -/
def chain (A B C : Node) : Graph :=
  { ops := [A, B, C]
    feeds := fun i j => (i == 0 && j == 1) || (i == 1 && j == 2) }

/-- Both classifiers hold for `nd` when the elementwise-type set is the one
`GetElementwiseOpTypes` yields in state `st`. -/
def accepts (st : State) (nd : Node) : Bool :=
  match IsFusionGroupOp (some nd) with
  | .ok true => (IsElementwiseOp (some nd) st).1
  | _ => false

/-- An extractor for chains, used to exhibit one that obeys the contract: it
asks the predicate about every operator node in order of address and reports
the maximal runs of consecutive accepted nodes. `i` is the address of the next
node and `cur` the run being built. -/
def runsLoop (t : Teller) :
    List Node → Nat → List NodePtr → State → Except Fault (List (List NodePtr) × State)
  | [], _, cur, st => .ok (if cur.isEmpty then [] else [cur], st)
  | nd :: rest, i, cur, st =>
    match t (some nd) st with
    | .error e => .error e
    | .ok (b, st') =>
      if b then runsLoop t rest (i + 1) (cur ++ [{ addr := i, node := some nd }]) st'
      else
        match runsLoop t rest (i + 1) [] st' with
        | .error e => .error e
        | .ok (groups, st'') => .ok (if cur.isEmpty then groups else cur :: groups, st'')

/-- The extractor that reports the maximal runs of accepted operator nodes. -/
def chainExtractor : Extractor Graph := fun g t st => runsLoop t g.ops 0 [] st

/-- A unary operator node of the given type on fp32 tensors of shape
`[4, 4]`. -/
def unaryOp (type : String) : Node :=
  opNode type [some (denseVar VarType.FP32 [4, 4])] [some (denseVar VarType.FP32 [4, 4])]

/-! ## `std::string::rfind` and `IsGradOp` -/

theorem rfindLoop_hit (s pat : List Char) (p : Nat)
    (h : (s.drop p).take pat.length = pat) : rfindLoop s pat p = p := by
  cases p with
  | zero =>
    have h0 : s.take pat.length = pat := by simpa using h
    simp [rfindLoop, h0]
  | succ q => simp [rfindLoop, h]

theorem rfindLoop_found (s pat : List Char) (p : Nat) :
    rfindLoop s pat p = npos ∨
      (s.drop (rfindLoop s pat p)).take pat.length = pat := by
  induction p with
  | zero =>
    by_cases h : s.take pat.length = pat
    · right; simp [rfindLoop, h]
    · left; simp [rfindLoop, h]
  | succ q ih =>
    by_cases h : ((s.drop (q + 1)).take pat.length) = pat
    · right; simp [rfindLoop, h]
    · simpa [rfindLoop, h] using ih

theorem grad_suffix_test (s : List Char) (hlen : s.length < 2 ^ 64) :
    (rfind s "_grad".data != npos &&
      rfind s "_grad".data == (s.length + 2 ^ 64 - "_grad".data.length) % 2 ^ 64) = true
      ↔ "_grad".data <:+ s := by
  have h5 : "_grad".data.length = 5 := rfl
  generalize hp : "_grad".data = pat at h5 ⊢
  simp only [Bool.and_eq_true, bne_iff_ne, ne_eq, beq_iff_eq, h5]
  constructor
  · rintro ⟨hne, heq⟩
    by_cases hle : pat.length ≤ s.length
    · have hmod : (s.length + 2 ^ 64 - 5) % 2 ^ 64 = s.length - 5 := by
        rw [h5] at hle; omega
      rw [hmod] at heq
      have hf := rfindLoop_found s pat (s.length - pat.length)
      simp only [rfind, hle, if_true] at hne heq
      rcases hf with hf | hf
      · exact absurd hf hne
      · rw [h5] at hf heq
        rw [heq] at hf
        have hl : (s.drop (s.length - 5)).length = 5 := by
          rw [List.length_drop]; rw [h5] at hle; omega
        have ht : (s.drop (s.length - 5)).take 5 = s.drop (s.length - 5) :=
          List.take_of_length_le (le_of_eq hl)
        rw [ht] at hf
        rw [← hf]
        exact List.drop_suffix _ _
    · simp [rfind, hle] at hne
  · intro hsuf
    have hle : pat.length ≤ s.length := hsuf.length_le
    obtain ⟨t, rfl⟩ := hsuf
    have hd : ((t ++ pat).drop ((t ++ pat).length - pat.length)).take pat.length = pat := by
      simp
    have hr : rfind (t ++ pat) pat = (t ++ pat).length - pat.length := by
      simp only [rfind, hle, if_true]
      exact rfindLoop_hit _ _ _ hd
    rw [hr]
    simp only [List.length_append, h5] at hlen ⊢
    unfold npos
    constructor <;> omega

theorem IsGradOp_valid (nd : Node) (op : OpDesc) (hop : nd.IsOp = true)
    (hdesc : nd.Op = some op) :
    IsGradOp (some nd) = .ok (rfind op.type.data "_grad".data != npos &&
      rfind op.type.data "_grad".data ==
        (op.type.data.length + 2 ^ 64 - "_grad".data.length) % 2 ^ 64) := by
  simp only [IsGradOp, hop, hdesc, if_true]

/-- C3: for every valid operator node, whatever its type name (of a length a
64-bit `size_t` can hold, short names and `"_grad"` itself included),
`IsGradOp` returns a Boolean, and that Boolean is true if and only if the type
name ends with `"_grad"`. -/
theorem IsGradOp_iff_grad_suffix (nd : Node) (op : OpDesc) (hop : nd.IsOp = true)
    (hdesc : nd.Op = some op) (hlen : op.type.data.length < 2 ^ 64) :
    (IsGradOp (some nd) = .ok true ↔ "_grad".data <:+ op.type.data) ∧
      (IsGradOp (some nd) = .ok false ↔ ¬ "_grad".data <:+ op.type.data) := by
  rw [IsGradOp_valid nd op hop hdesc]
  have h := grad_suffix_test op.type.data hlen
  generalize (rfind op.type.data "_grad".data != npos &&
      rfind op.type.data "_grad".data ==
        (op.type.data.length + 2 ^ 64 - "_grad".data.length) % 2 ^ 64) = b at h ⊢
  cases b with
  | true => simp [h.1 rfl]
  | false =>
    have hn : ¬ "_grad".data <:+ op.type.data := fun hs => Bool.noConfusion (h.2 hs)
    simp [hn]

/-- C3 (witness): the type names `conv2d_grad`, `conv2d_grad_grad` and `_grad`
are gradient operators; `conv2d`, `grad_conv2d` and `grad` are not. -/
theorem IsGradOp_iff_grad_suffix_witness :
    IsGradOp (some (opNode "conv2d_grad" [] [])) = .ok true ∧
      IsGradOp (some (opNode "conv2d_grad_grad" [] [])) = .ok true ∧
      IsGradOp (some (opNode "_grad" [] [])) = .ok true ∧
      IsGradOp (some (opNode "conv2d" [] [])) = .ok false ∧
      IsGradOp (some (opNode "grad_conv2d" [] [])) = .ok false ∧
      IsGradOp (some (opNode "grad" [] [])) = .ok false :=
  ⟨(IsGradOp_iff_grad_suffix (opNode "conv2d_grad" [] []) ⟨"conv2d_grad"⟩ rfl rfl (by decide)).1.2 (by decide),
   (IsGradOp_iff_grad_suffix (opNode "conv2d_grad_grad" [] []) ⟨"conv2d_grad_grad"⟩ rfl rfl (by decide)).1.2 (by decide),
   (IsGradOp_iff_grad_suffix (opNode "_grad" [] []) ⟨"_grad"⟩ rfl rfl (by decide)).1.2 (by decide),
   (IsGradOp_iff_grad_suffix (opNode "conv2d" [] []) ⟨"conv2d"⟩ rfl rfl (by decide)).2.2 (by decide),
   (IsGradOp_iff_grad_suffix (opNode "grad_conv2d" [] []) ⟨"grad_conv2d"⟩ rfl rfl (by decide)).2.2 (by decide),
   (IsGradOp_iff_grad_suffix (opNode "grad" [] []) ⟨"grad"⟩ rfl rfl (by decide)).2.2 (by decide)⟩

/-! ## The data-type loops and `IsFusionGroupOp` -/

theorem dataTypeLoop_rest (vars : List (Option Node)) (dt t : VarType) :
    dataTypeLoop vars false dt = .ok (some t) ↔
      t = dt ∧ ∀ v ∈ vars, denseOfType dt v = true := by
  induction vars with
  | nil =>
    simp only [dataTypeLoop, Except.ok.injEq, Option.some.injEq]
    constructor
    · intro h; simp [h]
    · intro h; exact h.1.symm
  | cons v rest ih =>
    cases v with
    | none => simp [dataTypeLoop, denseOfType, varOf]
    | some node =>
      cases hv : node.Var with
      | none => simp [dataTypeLoop, denseOfType, varOf, hv]
      | some var =>
        by_cases h1 : var.GetType = VarType.LOD_TENSOR
        · by_cases h2 : dt = var.GetDataType
          · subst h2
            simp [dataTypeLoop, denseOfType, varOf, hv, h1, ih]
          · have h2' : ¬ var.GetDataType = dt := fun h => h2 h.symm
            simp [dataTypeLoop, denseOfType, varOf, hv, h1, h2, h2']
        · simp [dataTypeLoop, denseOfType, varOf, hv, h1]

theorem dataTypeLoop_first (vars : List (Option Node)) (dt t : VarType) :
    dataTypeLoop vars true dt = .ok (some t) ↔
      (vars = [] ∧ t = dt) ∨ (vars ≠ [] ∧ ∀ v ∈ vars, denseOfType t v = true) := by
  cases vars with
  | nil =>
    simp only [dataTypeLoop, Except.ok.injEq, Option.some.injEq]
    constructor
    · intro h; simp [h]
    · intro h
      rcases h with ⟨_, h⟩ | ⟨h, _⟩
      · exact h.symm
      · exact absurd rfl h
  | cons v rest =>
    cases v with
    | none => simp [dataTypeLoop, denseOfType, varOf]
    | some node =>
      cases hv : node.Var with
      | none => simp [dataTypeLoop, denseOfType, varOf, hv]
      | some var =>
        by_cases h1 : var.GetType = VarType.LOD_TENSOR
        · simp only [dataTypeLoop, hv, h1, ne_eq, not_true_eq_false, if_false, if_true,
            dataTypeLoop_rest]
          simp only [denseOfType, varOf, hv, h1, List.mem_cons, forall_eq_or_imp]
          simp only [beq_self_eq_true, Bool.true_and, beq_iff_eq, reduceCtorEq, false_and,
            not_false_eq_true, true_and, false_or]
          constructor
          · rintro ⟨rfl, h⟩; exact ⟨rfl, h⟩
          · rintro ⟨h0, h⟩; subst h0; exact ⟨rfl, h⟩
        · simp [dataTypeLoop, denseOfType, varOf, hv, h1]

theorem dataTypeLoop_no_fault (vars : List (Option Node)) (is_first : Bool) (dt : VarType)
    (hnn : ∀ v ∈ vars, v ≠ none) : ∃ r, dataTypeLoop vars is_first dt = .ok r := by
  induction vars generalizing is_first dt with
  | nil => exact ⟨_, rfl⟩
  | cons v rest ih =>
    have hrest : ∀ w ∈ rest, w ≠ none := fun w hw => hnn w (List.mem_cons_of_mem _ hw)
    cases v with
    | none => exact absurd rfl (hnn none (List.mem_cons_self _ _))
    | some node =>
      cases hv : node.Var with
      | none => exact ⟨none, by simp [dataTypeLoop, hv]⟩
      | some var =>
        simp only [dataTypeLoop, hv]
        split
        · exact ⟨none, rfl⟩
        · split
          · exact ih _ _ hrest
          · split
            · exact ⟨none, rfl⟩
            · exact ih _ _ hrest

theorem dataTypeLoop_float_iff (vars : List (Option Node)) :
    (∃ t, dataTypeLoop vars true VarType.FP32 = .ok (some t) ∧ isFloatType t = true) ↔
      UniformFloatDense vars := by
  unfold UniformFloatDense
  constructor
  · rintro ⟨t, h, hf⟩
    rcases (dataTypeLoop_first vars _ t).1 h with ⟨rfl, _⟩ | ⟨_, hall⟩
    · exact ⟨t, hf, by simp⟩
    · exact ⟨t, hf, hall⟩
  · rintro ⟨t, hf, hall⟩
    by_cases hnil : vars = []
    · exact ⟨VarType.FP32, (dataTypeLoop_first vars _ _).2 (Or.inl ⟨hnil, rfl⟩), rfl⟩
    · exact ⟨t, (dataTypeLoop_first vars _ _).2 (Or.inr ⟨hnil, hall⟩), hf⟩

theorem IsFusionGroupOp_ok_true_iff (nd : Node) (hv : validOp nd = true) :
    IsFusionGroupOp (some nd) = .ok true ↔
      UniformFloatDense nd.inputs ∧ UniformFloatDense nd.outputs := by
  have hv' : (nd.IsOp && nd.Op.isSome) = true := hv
  rw [← dataTypeLoop_float_iff, ← dataTypeLoop_float_iff]
  constructor
  · intro h
    simp only [IsFusionGroupOp, hv', Bool.not_true] at h
    cases hi : dataTypeLoop nd.inputs true VarType.FP32 with
    | error e => simp [hi] at h
    | ok ri =>
      cases ri with
      | none => simp [hi] at h
      | some ti =>
        cases ho : dataTypeLoop nd.outputs true VarType.FP32 with
        | error e => simp [hi, ho] at h
        | ok ro =>
          cases ro with
          | none => simp [hi, ho] at h
          | some tout =>
            simp only [hi, ho] at h
            cases hfi : isFloatType ti <;> cases hfo : isFloatType tout <;>
              simp [hfi, hfo] at h
            exact ⟨⟨ti, rfl, hfi⟩, ⟨tout, rfl, hfo⟩⟩
  · rintro ⟨⟨ti, hi, hfi⟩, ⟨tout, ho, hfo⟩⟩
    simp [IsFusionGroupOp, hv', hi, ho, hfi, hfo]

theorem IsFusionGroupOp_no_fault (nd : Node)
    (hnn : ∀ v ∈ nd.inputs ++ nd.outputs, v ≠ none) :
    ∃ b, IsFusionGroupOp (some nd) = .ok b := by
  by_cases hv : (nd.IsOp && nd.Op.isSome) = true
  · obtain ⟨ri, hi⟩ := dataTypeLoop_no_fault nd.inputs true VarType.FP32
      (fun v hvm => hnn v (List.mem_append_left _ hvm))
    obtain ⟨ro, ho⟩ := dataTypeLoop_no_fault nd.outputs true VarType.FP32
      (fun v hvm => hnn v (List.mem_append_right _ hvm))
    simp only [IsFusionGroupOp, hv, Bool.not_true, hi, ho]
    cases ri with
    | none => exact ⟨false, rfl⟩
    | some ti =>
      cases ro with
      | none => exact ⟨false, rfl⟩
      | some tout =>
        simp only [Bool.false_eq_true, if_false]
        split
        · exact ⟨false, rfl⟩
        · exact ⟨true, rfl⟩
  · exact ⟨false, by simp [IsFusionGroupOp, hv]⟩

theorem IsFusionGroupOp_invalid (nd : Node) (hv : validOp nd = false) :
    IsFusionGroupOp (some nd) = .ok false := by
  have hv' : (nd.IsOp && nd.Op.isSome) = false := hv
  simp [IsFusionGroupOp, hv']

theorem IsFusionGroupOp_ok_false_of_not_uniform (nd : Node)
    (hnn : ∀ v ∈ nd.inputs ++ nd.outputs, v ≠ none)
    (hnot : ¬ (UniformFloatDense nd.inputs ∧ UniformFloatDense nd.outputs)) :
    IsFusionGroupOp (some nd) = .ok false := by
  cases hv : validOp nd with
  | false => exact IsFusionGroupOp_invalid nd hv
  | true =>
    obtain ⟨b, hb⟩ := IsFusionGroupOp_no_fault nd hnn
    cases b with
    | false => exact hb
    | true => exact absurd ((IsFusionGroupOp_ok_true_iff nd hv).1 hb) hnot

theorem not_uniform_of_mem (ins outs : List (Option Node)) (v : Option Node)
    (hmem : v ∈ ins ++ outs) (hbad : ∀ t, isFloatType t = true → denseOfType t v = false) :
    ¬ (UniformFloatDense ins ∧ UniformFloatDense outs) := by
  rintro ⟨⟨ti, hfi, hi⟩, ⟨tout, hfo, ho⟩⟩
  rcases List.mem_append.1 hmem with hm | hm
  · have := hi v hm
    rw [hbad ti hfi] at this
    exact Bool.false_ne_true this
  · have := ho v hm
    rw [hbad tout hfo] at this
    exact Bool.false_ne_true this

/-- C1 (as amended): for every valid operator node, `IsFusionGroupOp` returns
true if and only if each of the two operand lists is uniformly dense with one
floating-point element type; the lists may be empty. -/
theorem IsFusionGroupOp_true_iff_uniform (nd : Node) (hv : validOp nd = true) :
    IsFusionGroupOp (some nd) = .ok true ↔
      UniformFloatDense nd.inputs ∧ UniformFloatDense nd.outputs :=
  IsFusionGroupOp_ok_true_iff nd hv

/-- C1 (witness): `relu` with one fp32 input and one fp32 output of shape
`[2, 3]` is a valid operator node, and both sides of the amended rule hold
for it. -/
theorem IsFusionGroupOp_true_iff_uniform_witness :
    validOp reluNode = true ∧ IsFusionGroupOp (some reluNode) = .ok true ∧
      UniformFloatDense reluNode.inputs ∧ UniformFloatDense reluNode.outputs :=
  ⟨rfl, rfl, (IsFusionGroupOp_true_iff_uniform reluNode rfl).1 rfl⟩

/-- C1 (counterexample): an operator without inputs and with one dense fp32
output is accepted although it violates condition (a). -/
theorem IsFusionGroupOp_accepts_without_inputs :
    IsFusionGroupOp (some (opNode "fill_constant" []
        [some (denseVar VarType.FP32 [2, 3])])) = .ok true ∧
      ¬ EligibleAsSpecified (opNode "fill_constant" []
        [some (denseVar VarType.FP32 [2, 3])]) :=
  ⟨rfl, fun h => h.1 rfl⟩

/-- C6: for a valid operator node with no input, in particular for one that
has at least one output, `IsFusionGroupOp` decides from the outputs alone: it
returns true if and only if every output has a variable description, is dense,
and all outputs share one floating-point element type. -/
theorem IsFusionGroupOp_without_inputs (nd : Node) (hv : validOp nd = true)
    (hin : nd.inputs = []) :
    IsFusionGroupOp (some nd) = .ok true ↔ UniformFloatDense nd.outputs := by
  rw [IsFusionGroupOp_ok_true_iff nd hv, hin]
  constructor
  · exact fun h => h.2
  · exact fun h => ⟨⟨VarType.FP32, rfl, by simp⟩, h⟩

/-- C6 (witness): an input-less operator with one dense fp64 output. -/
theorem IsFusionGroupOp_without_inputs_witness :
    (opNode "uniform_random" [] [some (denseVar VarType.FP64 [8])]).outputs ≠ [] ∧
      (IsFusionGroupOp (some (opNode "uniform_random" []
          [some (denseVar VarType.FP64 [8])])) = .ok true ↔
        UniformFloatDense (opNode "uniform_random" []
          [some (denseVar VarType.FP64 [8])]).outputs) :=
  ⟨by simp [opNode, Node.outputs], IsFusionGroupOp_without_inputs _ rfl rfl⟩

/-- C7: when the operand lists hold no null pointer and some input or output
variable has no variable description, `IsFusionGroupOp` returns the Boolean
false. -/
theorem IsFusionGroupOp_false_of_missing_var (nd : Node)
    (hnn : ∀ v ∈ nd.inputs ++ nd.outputs, v ≠ none)
    (hmiss : ∃ v ∈ nd.inputs ++ nd.outputs, varOf v = none) :
    IsFusionGroupOp (some nd) = .ok false := by
  obtain ⟨v, hmem, hvar⟩ := hmiss
  apply IsFusionGroupOp_ok_false_of_not_uniform nd hnn
  apply not_uniform_of_mem _ _ v hmem
  intro t _
  simp [denseOfType, hvar]

/-- C7 (witness): the second of two outputs lacks its description. -/
theorem IsFusionGroupOp_false_of_missing_var_witness :
    IsFusionGroupOp (some (opNode "relu" [some (denseVar VarType.FP32 [2, 3])]
      [some (denseVar VarType.FP32 [2, 3]), some bareVar])) = .ok false :=
  IsFusionGroupOp_false_of_missing_var _
    (by simp [opNode, Node.inputs, Node.outputs])
    ⟨some bareVar, by simp [opNode, Node.inputs, Node.outputs], rfl⟩

/-- C9: when the operand lists hold no null pointer and some input or output
variable has an element type outside fp16, fp32 and fp64, `IsFusionGroupOp`
returns false. -/
theorem IsFusionGroupOp_false_of_non_float (nd : Node)
    (hnn : ∀ v ∈ nd.inputs ++ nd.outputs, v ≠ none)
    (hbad : ∃ v ∈ nd.inputs ++ nd.outputs, ∃ var, varOf v = some var ∧
      isFloatType var.GetDataType = false) :
    IsFusionGroupOp (some nd) = .ok false := by
  obtain ⟨v, hmem, var, hvar, hnf⟩ := hbad
  apply IsFusionGroupOp_ok_false_of_not_uniform nd hnn
  apply not_uniform_of_mem _ _ v hmem
  intro t ht
  simp only [denseOfType, hvar, Bool.and_eq_false_iff, beq_eq_false_iff_ne, ne_eq]
  right
  intro h
  rw [h, ht] at hnf
  exact Bool.noConfusion hnf

/-- C9 (witness): homogeneous fp32 inputs and an int32 output. -/
theorem IsFusionGroupOp_false_of_non_float_witness :
    IsFusionGroupOp (some (opNode "elementwise_add"
      [some (denseVar VarType.FP32 [4, 4]), some (denseVar VarType.FP32 [4, 4])]
      [some (denseVar VarType.INT32 [4, 4])])) = .ok false :=
  IsFusionGroupOp_false_of_non_float _
    (by simp [opNode, Node.inputs, Node.outputs])
    ⟨some (denseVar VarType.INT32 [4, 4]), by simp [opNode, Node.inputs, Node.outputs],
      ⟨VarType.LOD_TENSOR, VarType.INT32, [4, 4]⟩, rfl, rfl⟩

/-- C10: a valid operator node all of whose inputs are dense with one
floating-point element type `di` and all of whose outputs are dense with one
floating-point element type `dout` is accepted by `IsFusionGroupOp`, whatever
its type name and the shapes are. -/
theorem IsFusionGroupOp_true_of_uniform_float (nd : Node) (di dout : VarType)
    (hv : validOp nd = true)
    (hin : ∀ v ∈ nd.inputs, denseOfType di v = true)
    (hout : ∀ v ∈ nd.outputs, denseOfType dout v = true)
    (hdi : di = VarType.FP16 ∨ di = VarType.FP32 ∨ di = VarType.FP64)
    (hdo : dout = VarType.FP16 ∨ dout = VarType.FP32 ∨ dout = VarType.FP64) :
    IsFusionGroupOp (some nd) = .ok true := by
  rw [IsFusionGroupOp_ok_true_iff nd hv]
  refine ⟨⟨di, ?_, hin⟩, ⟨dout, ?_, hout⟩⟩
  · rcases hdi with h | h | h <;> rw [h] <;> rfl
  · rcases hdo with h | h | h <;> rw [h] <;> rfl

/-- C10 (witness): `relu` with one fp32 input and one fp32 output of shape
`[2, 3]`. -/
theorem IsFusionGroupOp_true_of_uniform_float_witness :
    IsFusionGroupOp (some reluNode) = .ok true :=
  IsFusionGroupOp_true_of_uniform_float reluNode VarType.FP32 VarType.FP32 rfl
    (by simp [reluNode, opNode, Node.inputs, denseOfType, varOf, denseVar, Node.Var])
    (by simp [reluNode, opNode, Node.outputs, denseOfType, varOf, denseVar, Node.Var])
    (Or.inr (Or.inl rfl)) (Or.inr (Or.inl rfl))

/-! ## The shape loop and `IsElementwiseOp` -/

theorem IsEqualAndNotEmpty_iff (l r : List Int) :
    IsEqualAndNotEmpty l r = true ↔ l ≠ [] ∧ r = l := by
  unfold IsEqualAndNotEmpty
  simp only [Bool.and_eq_true, bne_iff_ne, ne_eq, List.length_eq_zero, beq_iff_eq]
  constructor
  · rintro ⟨⟨h1, _⟩, h3⟩; exact ⟨h1, h3.symm⟩
  · rintro ⟨h1, h2⟩; exact ⟨⟨h1, h2 ▸ h1⟩, h2.symm⟩

theorem shapeLoop_rest (vars : List (Option Node)) (i : Nat) (hi : i ≠ 0)
    (shape_0 : List Int) :
    shapeLoop vars i shape_0 = true ↔
      ∀ v ∈ vars, shapeOf v = some shape_0 ∧ shape_0 ≠ [] := by
  induction vars generalizing i with
  | nil => simp [shapeLoop]
  | cons v rest ih =>
    cases v with
    | none => simp [shapeLoop, shapeOf]
    | some node =>
      cases hk : node.IsVar with
      | false => simp [shapeLoop, shapeOf, hk]
      | true =>
        cases hv : node.Var with
        | none => simp [shapeLoop, shapeOf, hk, hv]
        | some var =>
          have hi' : (i == 0) = false := by simpa using hi
          have h0 : shapeOf (some node) = some var.GetShape := by simp [shapeOf, hk, hv]
          simp only [shapeLoop, hk, hv, if_true, hi', Bool.false_eq_true, if_false,
            List.mem_cons, forall_eq_or_imp, h0, Option.some.injEq]
          by_cases he : IsEqualAndNotEmpty shape_0 var.GetShape = true
          · have he' := (IsEqualAndNotEmpty_iff _ _).1 he
            simp only [he, Bool.not_true, Bool.false_eq_true, if_false]
            rw [ih (i + 1) (Nat.succ_ne_zero i)]
            simp [he'.1, he'.2]
          · have he0 : IsEqualAndNotEmpty shape_0 var.GetShape = false := by
              simpa using he
            simp only [he0, Bool.not_false, if_true, Bool.false_eq_true, false_iff]
            rintro ⟨⟨h1, h2⟩, _⟩
            exact he ((IsEqualAndNotEmpty_iff _ _).2 ⟨h2, h1⟩)

theorem shapeLoop_zero (vars : List (Option Node)) (shape_0 : List Int) :
    shapeLoop vars 0 shape_0 = true ↔ LaterShapesMatchFirst vars := by
  unfold LaterShapesMatchFirst
  cases vars with
  | nil => simp [shapeLoop]
  | cons v rest =>
    cases v with
    | none => simp [shapeLoop, shapeOf]
    | some node =>
      cases hk : node.IsVar with
      | false => simp [shapeLoop, shapeOf, hk]
      | true =>
        cases hv : node.Var with
        | none => simp [shapeLoop, shapeOf, hk, hv]
        | some var =>
          simp only [shapeLoop, hk, hv, if_true, beq_self_eq_true]
          rw [shapeLoop_rest rest (0 + 1) (Nat.succ_ne_zero 0)]
          simp only [List.mem_cons, forall_eq_or_imp, List.tail_cons, firstShape]
          have h0 : shapeOf (some node) = some var.GetShape := by simp [shapeOf, hk, hv]
          rw [h0]
          constructor
          · intro h
            refine ⟨⟨rfl, fun w hw => ?_⟩, fun w hw => ?_⟩
            · rw [(h w hw).1]; rfl
            · exact ⟨_, (h w hw).1, (h w hw).2, rfl⟩
          · rintro ⟨_, h⟩ w hw
            obtain ⟨sh, h1, h2, h3⟩ := h w hw
            have : var.GetShape = sh := Option.some.inj h3
            subst this
            exact ⟨h1, h2⟩

theorem IsElementwiseOp_true_iff (nd : Node) (op : OpDesc) (st : State)
    (hop : nd.IsOp = true) (hdesc : nd.Op = some op) :
    (IsElementwiseOp (some nd) st).1 = true ↔
      op.type ∈ (GetElementwiseOpTypes st).1 ∧ nd.outputs ≠ [] ∧
        LaterShapesMatchFirst nd.inputs := by
  have hlen : (0 < nd.outputs.length) ↔ nd.outputs ≠ [] := List.length_pos
  by_cases hspec : IsSpecifiedOp (GetElementwiseOpTypes st).1 (some nd) = true
  · have hs := hspec
    simp only [IsSpecifiedOp, hop, hdesc, if_true, gt_iff_lt] at hs
    have h1 : 0 < nd.outputs.length := by
      by_contra hc; simp [hc] at hs
    have h2 : op.type ∈ (GetElementwiseOpTypes st).1 := by
      by_contra hc; simp [hc] at hs
    simp only [IsElementwiseOp, hspec, if_true, shapeLoop_zero]
    exact ⟨fun h => ⟨h2, hlen.1 h1, h⟩, fun h => h.2.2⟩
  · have hs := hspec
    simp only [IsSpecifiedOp, hop, hdesc, if_true, gt_iff_lt] at hs
    simp only [IsElementwiseOp, hspec, Bool.false_eq_true, if_false, false_iff]
    rintro ⟨h2, h1, _⟩
    apply hs
    simp [hlen.2 h1, h2]

theorem laterShapesMatchFirst_single (v : Option Node) :
    LaterShapesMatchFirst [v] ↔ (shapeOf v).isSome = true := by
  simp [LaterShapesMatchFirst]

theorem laterShapesMatchFirst_many (a b : Option Node) (rest : List (Option Node)) :
    LaterShapesMatchFirst (a :: b :: rest) ↔
      ∃ sh, sh ≠ [] ∧ ∀ v ∈ a :: b :: rest, shapeOf v = some sh := by
  unfold LaterShapesMatchFirst
  simp only [List.tail_cons, firstShape]
  constructor
  · rintro ⟨_, h⟩
    obtain ⟨sh, hb, hne, ha⟩ := h b (List.mem_cons_self _ _)
    refine ⟨sh, hne, fun v hv => ?_⟩
    rcases List.mem_cons.1 hv with rfl | hv'
    · exact ha
    · obtain ⟨sh', h1, _, h3⟩ := h v hv'
      rw [h1, ← h3, ha]
  · rintro ⟨sh, hne, h⟩
    refine ⟨fun v hv => by rw [h v hv]; rfl, fun v hv => ?_⟩
    exact ⟨sh, h v (List.mem_cons_of_mem _ hv), hne, h a (List.mem_cons_self _ _)⟩

/-- C2 (as amended): for every valid operator node, `IsElementwiseOp` returns
true if and only if its type name is in the elementwise-type set, it has at
least one output, every input is a variable with a description, and every
input after the first has a non-empty shape equal to the first input's
shape. -/
theorem IsElementwiseOp_true_iff_later_shapes (nd : Node) (op : OpDesc) (st : State)
    (hop : nd.IsOp = true) (hdesc : nd.Op = some op) :
    (IsElementwiseOp (some nd) st).1 = true ↔
      op.type ∈ (GetElementwiseOpTypes st).1 ∧ nd.outputs ≠ [] ∧
        LaterShapesMatchFirst nd.inputs :=
  IsElementwiseOp_true_iff nd op st hop hdesc

/-- C2 (witness): the amended rule at `elementwise_add` with two inputs of
shape `[4, 4]`, which it accepts. -/
theorem IsElementwiseOp_true_iff_later_shapes_witness :
    (IsElementwiseOp (some (opNode "elementwise_add"
        [some (denseVar VarType.FP32 [4, 4]), some (denseVar VarType.FP32 [4, 4])]
        [some (denseVar VarType.FP32 [4, 4])])) freshState).1 = true ∧
      LaterShapesMatchFirst
        [some (denseVar VarType.FP32 [4, 4]), some (denseVar VarType.FP32 [4, 4])] :=
  ⟨rfl, ((IsElementwiseOp_true_iff_later_shapes (opNode "elementwise_add"
        [some (denseVar VarType.FP32 [4, 4]), some (denseVar VarType.FP32 [4, 4])]
        [some (denseVar VarType.FP32 [4, 4])]) ⟨"elementwise_add"⟩ freshState rfl rfl).1
      rfl).2.2⟩

/-- C2 (counterexample): a registered operator whose only input has the empty
shape is accepted although condition (b) fails, and a registered operator
without outputs is rejected although conditions (a) and (b) hold. -/
theorem IsElementwiseOp_differs_from_stated_rule :
    ((IsElementwiseOp (some (opNode "elementwise_add"
          [some (denseVar VarType.FP32 [])]
          [some (denseVar VarType.FP32 [4, 4])])) freshState).1 = true ∧
      ¬ ElementwiseAsSpecified (GetElementwiseOpTypes freshState).1 "elementwise_add"
          [some (denseVar VarType.FP32 [])]) ∧
    ((IsElementwiseOp (some (opNode "elementwise_add"
          [some (denseVar VarType.FP32 [4, 4]), some (denseVar VarType.FP32 [4, 4])]
          [])) freshState).1 = false ∧
      ElementwiseAsSpecified (GetElementwiseOpTypes freshState).1 "elementwise_add"
          [some (denseVar VarType.FP32 [4, 4]), some (denseVar VarType.FP32 [4, 4])]) := by
  refine ⟨⟨rfl, ?_⟩, rfl, by decide, ?_⟩
  · rintro ⟨_, h⟩
    obtain ⟨sh, h1, h2, _⟩ := h _ (List.mem_cons_self _ _)
    have : sh = [] := (Option.some.inj h1).symm
    exact h2 this
  · intro v hv
    refine ⟨[4, 4], ?_, by decide, rfl⟩
    simp only [List.mem_cons, List.mem_singleton, List.not_mem_nil, or_false, or_self] at hv
    rw [hv]; rfl

/-- C5 (as amended): for every valid operator node whose type is registered as
elementwise, that has at least one output and exactly one input, a variable
with a description, `IsElementwiseOp` returns true whatever the shape of that
input is. -/
theorem IsElementwiseOp_lone_input (nd : Node) (op : OpDesc) (st : State)
    (v : Option Node) (hop : nd.IsOp = true) (hdesc : nd.Op = some op)
    (hreg : op.type ∈ (GetElementwiseOpTypes st).1) (hout : nd.outputs ≠ [])
    (hin : nd.inputs = [v]) (hvar : (shapeOf v).isSome = true) :
    (IsElementwiseOp (some nd) st).1 = true := by
  rw [IsElementwiseOp_true_iff nd op st hop hdesc, hin, laterShapesMatchFirst_single]
  exact ⟨hreg, hout, hvar⟩

/-- C5 (witness): `elementwise_add` with a single input of shape `[1]`. -/
theorem IsElementwiseOp_lone_input_witness :
    (IsElementwiseOp (some (opNode "elementwise_add" [some (denseVar VarType.FP32 [1])]
      [some (denseVar VarType.FP32 [1])])) freshState).1 = true :=
  IsElementwiseOp_lone_input _ ⟨"elementwise_add"⟩ freshState
    (some (denseVar VarType.FP32 [1])) rfl rfl (by decide)
    (by simp [opNode, Node.outputs]) rfl rfl

/-- C5 (counterexample): `relu`, registered as elementwise, with one output and
a single input whose shape is empty, is accepted. -/
theorem IsElementwiseOp_accepts_lone_empty_shape :
    shapeOf (some (denseVar VarType.FP32 [])) = some [] ∧
      (IsElementwiseOp (some (opNode "relu" [some (denseVar VarType.FP32 [])]
        [some (denseVar VarType.FP32 [])])) freshState).1 = true :=
  ⟨rfl, rfl⟩

/-- C8: for every valid operator node whose type is registered as elementwise
and that has at least one output and at least two inputs, `IsElementwiseOp`
returns true exactly when all inputs are variables with a description whose
shapes are one and the same non-empty shape. -/
theorem IsElementwiseOp_many_inputs (nd : Node) (op : OpDesc) (st : State)
    (hop : nd.IsOp = true) (hdesc : nd.Op = some op)
    (hreg : op.type ∈ (GetElementwiseOpTypes st).1) (hout : nd.outputs ≠ [])
    (htwo : 2 ≤ nd.inputs.length) :
    (IsElementwiseOp (some nd) st).1 = true ↔
      ∃ sh, sh ≠ [] ∧ ∀ v ∈ nd.inputs, shapeOf v = some sh := by
  rw [IsElementwiseOp_true_iff nd op st hop hdesc]
  match hi : nd.inputs, htwo with
  | a :: b :: rest, _ =>
    rw [laterShapesMatchFirst_many]
    exact ⟨fun h => h.2.2, fun h => ⟨hreg, hout, h⟩⟩

/-- C8 (witness): `elementwise_add` with inputs `[4, 4]` and `[4, 4]` is
accepted, with inputs `[4, 4]` and `[4, 1]` it is rejected. -/
theorem IsElementwiseOp_many_inputs_witness :
    (IsElementwiseOp (some addSameShapes) freshState).1 = true ∧
      ¬ (IsElementwiseOp (some addMixedShapes) freshState).1 = true := by
  constructor
  · refine (IsElementwiseOp_many_inputs addSameShapes ⟨"elementwise_add"⟩ freshState rfl rfl
      (by decide) (by simp [addSameShapes, opNode, Node.outputs])
      (by simp [addSameShapes, opNode, Node.inputs])).2 ⟨[4, 4], by decide, ?_⟩
    intro v hv
    simp only [addSameShapes, opNode, Node.inputs, List.mem_cons, List.mem_singleton,
      List.not_mem_nil, or_false, or_self] at hv
    rw [hv]; rfl
  · intro h
    obtain ⟨sh, _, hall⟩ := (IsElementwiseOp_many_inputs addMixedShapes ⟨"elementwise_add"⟩
      freshState rfl rfl (by decide) (by simp [addMixedShapes, opNode, Node.outputs])
      (by simp [addMixedShapes, opNode, Node.inputs])).1 h
    have h1 : shapeOf (some (denseVar VarType.FP32 [4, 4])) = some sh :=
      hall _ (by simp [addMixedShapes, opNode, Node.inputs])
    have h2 : shapeOf (some (denseVar VarType.FP32 [4, 1])) = some sh :=
      hall _ (by simp [addMixedShapes, opNode, Node.inputs])
    have h3 : ([4, 4] : List Int) = [4, 1] := (Option.some.inj h1).trans (Option.some.inj h2).symm
    exact absurd h3 (by decide)

/-! ## The detector -/

/-- C4: for every graph and every subgraph extractor, the detector returns
what the extractor returns for that graph and the predicate `teller`, and
`teller` is the conjunction of the two classifiers: it faults exactly when
`IsFusionGroupOp` does, and otherwise its Boolean is
`IsFusionGroupOp(n) && IsElementwiseOp(n)`, the second classifier being run
(and the static filled) only when the first one holds. -/
theorem detector_is_extractor_on_conjunction {Graph : Type}
    (SubgraphDetector : Extractor Graph) (graph : Graph) (st : State) :
    ElementwiseGroupDetector.call SubgraphDetector graph st
        = SubgraphDetector graph teller st ∧
      ∀ (n : Option Node) (s : State),
        teller n s = (IsFusionGroupOp n).map (fun a =>
          (a && (IsElementwiseOp n s).1, if a then (IsElementwiseOp n s).2 else s)) := by
  refine ⟨rfl, fun n s => ?_⟩
  unfold teller
  cases h : IsFusionGroupOp n with
  | error e => rfl
  | ok a => cases a <;> rfl

/-! ## Further properties of `IsElementwiseOp` -/

theorem IsElementwiseOp_eq (nd : Node) (st : State) :
    IsElementwiseOp (some nd) st =
      (IsSpecifiedOp (GetElementwiseOpTypes st).1 (some nd) && shapeLoop nd.inputs 0 [],
        (GetElementwiseOpTypes st).2) := by
  unfold IsElementwiseOp
  cases h : IsSpecifiedOp (GetElementwiseOpTypes st).1 (some nd) <;> simp [h]

theorem IsSpecifiedOp_congr (types : List String) (nd nd' : Node)
    (hk : nd'.IsOp = nd.IsOp) (ho : nd'.Op = nd.Op)
    (hlen : nd'.outputs.length = nd.outputs.length) :
    IsSpecifiedOp types (some nd') = IsSpecifiedOp types (some nd) := by
  simp only [IsSpecifiedOp, hk, ho, hlen]

theorem IsSpecifiedOp_none (types : List String) : IsSpecifiedOp types none = false := rfl

theorem IsSpecifiedOp_invalid (types : List String) (nd : Node) (hv : validOp nd = false) :
    IsSpecifiedOp types (some nd) = false := by
  unfold validOp at hv
  cases hk : nd.IsOp with
  | false => simp [IsSpecifiedOp, hk]
  | true =>
    cases ho : nd.Op with
    | none => simp [IsSpecifiedOp, hk, ho]
    | some op => simp [hk, ho] at hv

theorem IsSpecifiedOp_no_outputs (types : List String) (nd : Node) (hout : nd.outputs = []) :
    IsSpecifiedOp types (some nd) = false := by
  cases hk : nd.IsOp with
  | false => simp [IsSpecifiedOp, hk]
  | true =>
    cases ho : nd.Op with
    | none => simp [IsSpecifiedOp, hk, ho]
    | some op => simp [IsSpecifiedOp, hk, ho, hout]

theorem shapeLoop_all_some (vars : List (Option Node))
    (h : shapeLoop vars 0 [] = true) : ∀ v ∈ vars, (shapeOf v).isSome = true :=
  ((shapeLoop_zero vars []).1 h).1

/-- C11: `IsElementwiseOp` does not read the output variables: two operator
nodes with the same kind, the same operator description (type name), the same
inputs and the same number of outputs get the same result, whatever the
shapes (or anything else) of their outputs are. -/
theorem IsElementwiseOp_ignores_outputs (nd nd' : Node) (st : State)
    (hk : nd'.IsOp = nd.IsOp) (ho : nd'.Op = nd.Op) (hin : nd'.inputs = nd.inputs)
    (hlen : nd'.outputs.length = nd.outputs.length) :
    IsElementwiseOp (some nd') st = IsElementwiseOp (some nd) st := by
  rw [IsElementwiseOp_eq, IsElementwiseOp_eq, IsSpecifiedOp_congr _ nd nd' hk ho hlen, hin]

/-- C11 (witness): `elementwise_add` with inputs `[4, 4]`, `[4, 4]` is accepted
with an output of shape `[4, 1]` just as with an output of shape `[4, 4]`. -/
theorem IsElementwiseOp_ignores_outputs_witness :
    IsElementwiseOp (some addOtherOutputShape) freshState
        = IsElementwiseOp (some addSameShapes) freshState ∧
      (IsElementwiseOp (some addOtherOutputShape) freshState).1 = true :=
  ⟨IsElementwiseOp_ignores_outputs addSameShapes addOtherOutputShape freshState
    rfl rfl rfl rfl, rfl⟩

/-- C12: if some input pointer of a node is null, or points to a node that is
not of variable kind, or to a node without a variable description, then
`IsElementwiseOp` returns false, wherever in the input list that pointer
stands and whatever the other inputs are. -/
theorem IsElementwiseOp_false_of_bad_input (nd : Node) (st : State)
    (hbad : ∃ v ∈ nd.inputs, v = none ∨
      ∃ node, v = some node ∧ (node.IsVar = false ∨ node.Var = none)) :
    (IsElementwiseOp (some nd) st).1 = false := by
  obtain ⟨v, hmem, hv⟩ := hbad
  have hnone : shapeOf v = none := by
    rcases hv with rfl | ⟨node, rfl, hk | hd⟩
    · rfl
    · simp [shapeOf, hk]
    · simp [shapeOf, hd]
  rw [IsElementwiseOp_eq]
  cases hl : shapeLoop nd.inputs 0 [] with
  | false => simp
  | true =>
    have := shapeLoop_all_some nd.inputs hl v hmem
    rw [hnone] at this
    exact absurd this (by simp)

/-- C12 (witness): `elementwise_add` whose second of three inputs is a null
pointer. -/
theorem IsElementwiseOp_false_of_bad_input_witness :
    (IsElementwiseOp (some (opNode "elementwise_add"
      [some (denseVar VarType.FP32 [4, 4]), none, some (denseVar VarType.FP32 [4, 4])]
      [some (denseVar VarType.FP32 [4, 4])])) freshState).1 = false :=
  IsElementwiseOp_false_of_bad_input _ freshState
    ⟨none, by simp [opNode, Node.inputs], Or.inl rfl⟩

/-! ## Invalid nodes, empty operand lists -/

theorem validOp_cases (nd : Node) :
    validOp nd = true ↔ nd.IsOp = true ∧ ∃ op, nd.Op = some op := by
  unfold validOp
  cases hk : nd.IsOp <;> cases ho : nd.Op <;> simp

/-- C13: `IsGradOp` raises `InvalidArgument` exactly when its precondition is
violated: for a null pointer, a node that is not an operator and an operator
node without operator description the result is that error, and for every
valid operator node the result is a Boolean. -/
theorem IsGradOp_error_iff_invalid (n : Option Node) :
    (IsGradOp n = .error Fault.InvalidArgument ↔ isValidOpPtr n = false) ∧
      ((∃ b, IsGradOp n = .ok b) ↔ isValidOpPtr n = true) := by
  cases n with
  | none => simp [IsGradOp, isValidOpPtr]
  | some nd =>
    cases hk : nd.IsOp with
    | false => simp [IsGradOp, isValidOpPtr, validOp, hk]
    | true =>
      cases ho : nd.Op with
      | none => simp [IsGradOp, isValidOpPtr, validOp, hk, ho]
      | some op => simp [IsGradOp, isValidOpPtr, validOp, hk, ho]

/-- C14: for a null pointer, a node that is not an operator and an operator
node without operator description, `IsFusionGroupOp` returns the Boolean
false, not a fault, and `IsElementwiseOp` returns false. -/
theorem classifiers_false_of_invalid (n : Option Node) (st : State)
    (hinv : isValidOpPtr n = false) :
    IsFusionGroupOp n = .ok false ∧ (IsElementwiseOp n st).1 = false := by
  cases n with
  | none => exact ⟨rfl, rfl⟩
  | some nd =>
    have hv : validOp nd = false := hinv
    refine ⟨IsFusionGroupOp_invalid nd hv, ?_⟩
    rw [IsElementwiseOp_eq, IsSpecifiedOp_invalid _ nd hv]
    rfl

/-- C14 (witness): the null pointer, a variable node, and an operator node
without operator description. -/
theorem classifiers_false_of_invalid_witness :
    (IsFusionGroupOp none = .ok false ∧ (IsElementwiseOp none freshState).1 = false) ∧
      (IsFusionGroupOp (some (denseVar VarType.FP32 [4, 4])) = .ok false ∧
        (IsElementwiseOp (some (denseVar VarType.FP32 [4, 4])) freshState).1 = false) ∧
      (IsFusionGroupOp (some (Node.mk NodeKind.kOperation none none [] [])) = .ok false ∧
        (IsElementwiseOp (some (Node.mk NodeKind.kOperation none none [] []))
          freshState).1 = false) :=
  ⟨classifiers_false_of_invalid none freshState rfl,
   classifiers_false_of_invalid (some (denseVar VarType.FP32 [4, 4])) freshState rfl,
   classifiers_false_of_invalid (some (Node.mk NodeKind.kOperation none none [] []))
    freshState rfl⟩

/-- C17: a node accepted by the predicate handed to the extractor is an
operator node with at least one output whose type name is in the
elementwise-type set; and an operator node without outputs is rejected by
`IsElementwiseOp`, whatever its type name and its inputs are. -/
theorem teller_true_has_output (n : Option Node) (st st' : State)
    (hacc : teller n st = .ok (true, st')) :
    (∃ nd op, n = some nd ∧ nd.Op = some op ∧ nd.outputs ≠ [] ∧
        op.type ∈ (GetElementwiseOpTypes st).1) ∧
      ∀ (nd : Node) (s : State), nd.outputs = [] → (IsElementwiseOp (some nd) s).1 = false := by
  constructor
  · have hE : (IsElementwiseOp n st).1 = true := by
      unfold teller at hacc
      cases hf : IsFusionGroupOp n with
      | error e => simp [hf] at hacc
      | ok b =>
        cases b with
        | false => simp [hf] at hacc
        | true =>
          simp only [hf, Except.ok.injEq] at hacc
          rw [hacc]
    cases n with
    | none => exact absurd hE (by simp [IsElementwiseOp, IsSpecifiedOp])
    | some nd =>
      cases hv : validOp nd with
      | false =>
        rw [IsElementwiseOp_eq, IsSpecifiedOp_invalid _ nd hv] at hE
        exact absurd hE (by simp)
      | true =>
        obtain ⟨hk, op, ho⟩ := (validOp_cases nd).1 hv
        have h := (IsElementwiseOp_true_iff nd op st hk ho).1 hE
        exact ⟨nd, op, rfl, ho, h.2.1, h.1⟩
  · intro nd s hout
    rw [IsElementwiseOp_eq, IsSpecifiedOp_no_outputs _ nd hout]
    rfl

/-- C17 (witness): `elementwise_add` with two inputs of shape `[4, 4]` and one
output is accepted, and has an output and a registered type name. -/
theorem teller_true_has_output_witness :
    (∃ nd op, some addSameShapes = some nd ∧ nd.Op = some op ∧ nd.outputs ≠ [] ∧
        op.type ∈ (GetElementwiseOpTypes freshState).1) ∧
      ∀ (nd : Node) (s : State), nd.outputs = [] → (IsElementwiseOp (some nd) s).1 = false :=
  teller_true_has_output (some addSameShapes) freshState
    (GetElementwiseOpTypes freshState).2 rfl

/-- C18: for every valid operator node with no input and no output,
`IsFusionGroupOp` returns true: each of the two loops ends at once with the
initial data type `FP32`. -/
theorem IsFusionGroupOp_true_of_no_operands (nd : Node) (hv : validOp nd = true)
    (hin : nd.inputs = []) (hout : nd.outputs = []) :
    IsFusionGroupOp (some nd) = .ok true ∧
      dataTypeLoop nd.inputs true VarType.FP32 = .ok (some VarType.FP32) ∧
      dataTypeLoop nd.outputs true VarType.FP32 = .ok (some VarType.FP32) := by
  have hv' : (nd.IsOp && nd.Op.isSome) = true := hv
  rw [hin, hout]
  refine ⟨?_, rfl, rfl⟩
  simp [IsFusionGroupOp, hv', hin, hout, dataTypeLoop, isFloatType]

/-- C18 (witness): an operator node without operands. -/
theorem IsFusionGroupOp_true_of_no_operands_witness :
    IsFusionGroupOp (some (opNode "feed" [] [])) = .ok true ∧
      dataTypeLoop (opNode "feed" [] []).inputs true VarType.FP32
        = .ok (some VarType.FP32) ∧
      dataTypeLoop (opNode "feed" [] []).outputs true VarType.FP32
        = .ok (some VarType.FP32) :=
  IsFusionGroupOp_true_of_no_operands (opNode "feed" [] []) rfl rfl rfl

/-! ## Reordering of the operand lists -/

theorem laterShapesMatchFirst_iff_mem (l : List (Option Node)) :
    LaterShapesMatchFirst l ↔
      (∀ v ∈ l, (shapeOf v).isSome = true) ∧
        (2 ≤ l.length → ∃ sh, sh ≠ [] ∧ ∀ v ∈ l, shapeOf v = some sh) := by
  match l with
  | [] => simp [LaterShapesMatchFirst]
  | [v] => simp [LaterShapesMatchFirst]
  | a :: b :: rest =>
    rw [laterShapesMatchFirst_many]
    constructor
    · rintro ⟨sh, hne, h⟩
      exact ⟨fun v hv => by rw [h v hv]; rfl, fun _ => ⟨sh, hne, h⟩⟩
    · rintro ⟨_, h⟩
      exact h (by simp)

theorem laterShapesMatchFirst_perm (l l' : List (Option Node)) (hp : l'.Perm l) :
    LaterShapesMatchFirst l' ↔ LaterShapesMatchFirst l := by
  rw [laterShapesMatchFirst_iff_mem, laterShapesMatchFirst_iff_mem, hp.length_eq]
  simp only [hp.mem_iff]

theorem shapeLoop_perm (l l' : List (Option Node)) (hp : l'.Perm l) :
    shapeLoop l' 0 [] = shapeLoop l 0 [] := by
  rw [Bool.eq_iff_iff, shapeLoop_zero, shapeLoop_zero]
  exact laterShapesMatchFirst_perm l l' hp

theorem uniformFloatDense_perm (l l' : List (Option Node)) (hp : l'.Perm l) :
    UniformFloatDense l' ↔ UniformFloatDense l := by
  unfold UniformFloatDense
  simp only [hp.mem_iff]

theorem IsFusionGroupOp_eq_of_iff (nd nd' : Node)
    (hnn : ∀ v ∈ nd.inputs ++ nd.outputs, v ≠ none)
    (hnn' : ∀ v ∈ nd'.inputs ++ nd'.outputs, v ≠ none)
    (hiff : IsFusionGroupOp (some nd') = .ok true ↔ IsFusionGroupOp (some nd) = .ok true) :
    IsFusionGroupOp (some nd') = IsFusionGroupOp (some nd) := by
  obtain ⟨b, hb⟩ := IsFusionGroupOp_no_fault nd hnn
  obtain ⟨b', hb'⟩ := IsFusionGroupOp_no_fault nd' hnn'
  rw [hb, hb'] at hiff ⊢
  cases b <;> cases b' <;> simp at hiff ⊢

/-- C19: both classifiers are invariant under reordering of the operand lists.
If `nd'` arises from `nd` by permuting the input list and the output list,
then `IsElementwiseOp` gives the same result for both, and so does
`IsFusionGroupOp` when no operand pointer is null. -/
theorem classifiers_invariant_under_reordering (nd nd' : Node)
    (hk : nd'.IsOp = nd.IsOp) (ho : nd'.Op = nd.Op)
    (hin : nd'.inputs.Perm nd.inputs) (hout : nd'.outputs.Perm nd.outputs) :
    (∀ st, IsElementwiseOp (some nd') st = IsElementwiseOp (some nd) st) ∧
      ((∀ v ∈ nd.inputs ++ nd.outputs, v ≠ none) →
        IsFusionGroupOp (some nd') = IsFusionGroupOp (some nd)) := by
  constructor
  · intro st
    rw [IsElementwiseOp_eq, IsElementwiseOp_eq,
      IsSpecifiedOp_congr _ nd nd' hk ho hout.length_eq, shapeLoop_perm _ _ hin]
  · intro hnn
    have hnn' : ∀ v ∈ nd'.inputs ++ nd'.outputs, v ≠ none := by
      intro v hv
      exact hnn v ((hin.append hout).mem_iff.1 hv)
    have hvalid : validOp nd' = validOp nd := by unfold validOp; rw [hk, ho]
    cases hv : validOp nd with
    | false =>
      rw [IsFusionGroupOp_invalid nd hv, IsFusionGroupOp_invalid nd' (hvalid.trans hv)]
    | true =>
      apply IsFusionGroupOp_eq_of_iff nd nd' hnn hnn'
      rw [IsFusionGroupOp_ok_true_iff nd hv, IsFusionGroupOp_ok_true_iff nd' (hvalid.trans hv),
        uniformFloatDense_perm _ _ hin, uniformFloatDense_perm _ _ hout]

/-- C19 (witness): `elementwise_add` with inputs of shapes `[4, 4]`, `[4, 1]`
and with the same inputs in the other order is rejected by `IsElementwiseOp`
and accepted by `IsFusionGroupOp` either way. -/
theorem classifiers_invariant_under_reordering_witness :
    (∀ st, IsElementwiseOp (some addMixedShapesSwapped) st
        = IsElementwiseOp (some addMixedShapes) st) ∧
      IsFusionGroupOp (some addMixedShapesSwapped) = IsFusionGroupOp (some addMixedShapes) :=
  ⟨(classifiers_invariant_under_reordering addMixedShapes addMixedShapesSwapped rfl rfl
      (List.Perm.swap _ _ _) (List.Perm.refl _)).1,
    (classifiers_invariant_under_reordering addMixedShapes addMixedShapesSwapped rfl rfl
      (List.Perm.swap _ _ _) (List.Perm.refl _)).2
      (by simp [addMixedShapes, opNode, Node.inputs, Node.outputs])⟩

/-! ## The memoized elementwise-type set -/

theorem GetElementwiseOpTypes_idem (st : State) :
    (GetElementwiseOpTypes (GetElementwiseOpTypes st).2).1 = (GetElementwiseOpTypes st).1 := by
  unfold GetElementwiseOpTypes
  cases h : st.elementwise_op_types.isEmpty with
  | true =>
    cases h2 : (st.Find 0).isEmpty <;> simp [h2]
  | false => simp [h]

theorem GetElementwiseOpTypes_find (st : State) :
    (GetElementwiseOpTypes st).2.Find = st.Find := by
  unfold GetElementwiseOpTypes
  cases h : st.elementwise_op_types.isEmpty <;> simp

theorem runEvents_filled (events : List Event) (st : State)
    (hfull : st.elementwise_op_types ≠ []) :
    (runEvents events st).1 = 0 ∧
      ∀ r ∈ (runEvents events st).2, r = st.elementwise_op_types := by
  induction events generalizing st with
  | nil => simp [runEvents]
  | cons e rest ih =>
    have hne : st.elementwise_op_types.isEmpty = false := by
      cases hc : st.elementwise_op_types with
      | nil => exact absurd hc hfull
      | cons a l => rfl
    cases e with
    | update find =>
      simp only [runEvents]
      exact ih { st with Find := find } hfull
    | call =>
      have hG : GetElementwiseOpTypes st = (st.elementwise_op_types, st) := by
        simp [GetElementwiseOpTypes, hne]
      have h := ih st hfull
      simp only [runEvents, hG, findCalls, hne, Bool.false_eq_true, if_false, Nat.zero_add,
        List.mem_cons, forall_eq_or_imp, true_and]
      exact h

/-- C15 (as amended): from a state in which the static is still empty, if the
first call obtains a non-empty set from the registry, then over every
continuation by further calls and arbitrary registry changes the registry is
queried exactly once, by that first call, and every call returns the set of
that first query. -/
theorem registry_queried_once_if_nonempty (st : State) (rest : List Event)
    (hempty : st.elementwise_op_types = []) (hfound : st.Find 0 ≠ []) :
    (runEvents (Event.call :: rest) st).1 = 1 ∧
      ∀ r ∈ (runEvents (Event.call :: rest) st).2, r = st.Find 0 := by
  have hG : GetElementwiseOpTypes st
      = (st.Find 0, { st with elementwise_op_types := st.Find 0 }) := by
    simp [GetElementwiseOpTypes, hempty]
  have h := runEvents_filled rest { st with elementwise_op_types := st.Find 0 } hfound
  simp only [runEvents, hG, findCalls, hempty, List.isEmpty_nil, if_true, List.mem_cons,
    forall_eq_or_imp, true_and]
  exact ⟨by rw [h.1], h.2⟩

/-- C15 (witness): with the registry of `freshState`, a call, a change of the
registry and two more calls make one query and return the first set three
times. -/
theorem registry_queried_once_if_nonempty_witness :
    runEvents [Event.call, Event.update (fun _ => ["tanh"]), Event.call, Event.call]
        freshState
      = (1, [["elementwise_add", "relu"], ["elementwise_add", "relu"],
          ["elementwise_add", "relu"]]) ∧
    ((runEvents (Event.call :: [Event.update (fun _ => ["tanh"]), Event.call, Event.call])
        freshState).1 = 1 ∧
      ∀ r ∈ (runEvents (Event.call :: [Event.update (fun _ => ["tanh"]), Event.call,
        Event.call]) freshState).2, r = freshState.Find 0) :=
  ⟨rfl, registry_queried_once_if_nonempty freshState
    [Event.update (fun _ => ["tanh"]), Event.call, Event.call] rfl (by decide)⟩

/-- C15 (counterexample): when the first query finds the registry's set empty,
the static stays empty; after the registry has changed, the second call
queries it again and returns the new set, not the set of the first query. -/
theorem registry_queried_again_after_empty :
    runEvents [Event.call, Event.update (fun _ => ["relu"]), Event.call] emptyRegistryState
      = (2, [[], ["relu"]]) :=
  rfl

/-! ## Groups over a linear chain -/

theorem teller_decides_accepts (g : Graph) (st : State)
    (hnn : ∀ nd ∈ g.ops, ∀ v ∈ nd.inputs ++ nd.outputs, v ≠ none) :
    Decides teller g
      (fun s => (GetElementwiseOpTypes s).1 = (GetElementwiseOpTypes st).1) (accepts st) := by
  intro nd hnd s hs
  obtain ⟨b, hb⟩ := IsFusionGroupOp_no_fault nd (hnn nd hnd)
  cases b with
  | false =>
    refine ⟨s, ?_, hs⟩
    simp [teller, accepts, hb]
  | true =>
    refine ⟨(GetElementwiseOpTypes s).2, ?_, ?_⟩
    · simp only [teller, accepts, hb]
      rw [IsElementwiseOp_eq, IsElementwiseOp_eq, hs]
    · show (GetElementwiseOpTypes (GetElementwiseOpTypes s).2).1 = _
      rw [GetElementwiseOpTypes_idem, hs]

theorem accepts_eq_true_iff (st : State) (nd : Node) :
    accepts st nd = true ↔
      IsFusionGroupOp (some nd) = .ok true ∧ (IsElementwiseOp (some nd) st).1 = true := by
  unfold accepts
  cases h : IsFusionGroupOp (some nd) with
  | error e => simp
  | ok b => cases b <;> simp

theorem chain_sat (A B C : Node) (P : Node → Bool) (i : Nat) :
    (chain A B C).sat P i ↔
      (i = 0 ∧ P A = true) ∨ (i = 1 ∧ P B = true) ∨ (i = 2 ∧ P C = true) := by
  unfold Graph.sat chain
  match i with
  | 0 => simp
  | 1 => simp
  | 2 => simp
  | n + 3 => simp

theorem chain_feeds (A B C : Node) (i j : Nat) :
    (chain A B C).feeds i j = true ↔ (i = 0 ∧ j = 1) ∨ (i = 1 ∧ j = 2) := by
  simp [chain]

theorem chain_sat_lt (A B C : Node) (P : Node → Bool) (i : Nat)
    (h : (chain A B C).sat P i) : i < 3 := by
  rcases (chain_sat A B C P i).1 h with ⟨h, _⟩ | ⟨h, _⟩ | ⟨h, _⟩ <;> omega

theorem chain_connected_lt (A B C : Node) (P : Node → Bool) (i j : Nat)
    (hi : i < 3) (h : (chain A B C).connected P i j) : j < 3 := by
  induction h with
  | refl => exact hi
  | tail _ hl _ => exact chain_sat_lt A B C P _ hl.2.1

theorem chain_connected_all (A B C : Node) (P : Node → Bool)
    (hA : P A = true) (hB : P B = true) (hC : P C = true) (i j : Nat)
    (hi : i < 3) (hj : j < 3) : (chain A B C).connected P i j := by
  have s0 : (chain A B C).sat P 0 := (chain_sat A B C P 0).2 (Or.inl ⟨rfl, hA⟩)
  have s1 : (chain A B C).sat P 1 := (chain_sat A B C P 1).2 (Or.inr (Or.inl ⟨rfl, hB⟩))
  have s2 : (chain A B C).sat P 2 := (chain_sat A B C P 2).2 (Or.inr (Or.inr ⟨rfl, hC⟩))
  have l01 : (chain A B C).linked P 0 1 := ⟨s0, s1, Or.inl rfl⟩
  have l10 : (chain A B C).linked P 1 0 := ⟨s1, s0, Or.inr rfl⟩
  have l12 : (chain A B C).linked P 1 2 := ⟨s1, s2, Or.inl rfl⟩
  have l21 : (chain A B C).linked P 2 1 := ⟨s2, s1, Or.inr rfl⟩
  have toOne : ∀ k, k < 3 → (chain A B C).connected P k 1 := by
    intro k hk
    match k, hk with
    | 0, _ => exact Relation.ReflTransGen.single l01
    | 1, _ => exact Relation.ReflTransGen.refl
    | 2, _ => exact Relation.ReflTransGen.single l21
  have fromOne : ∀ k, k < 3 → (chain A B C).connected P 1 k := by
    intro k hk
    match k, hk with
    | 0, _ => exact Relation.ReflTransGen.single l10
    | 1, _ => exact Relation.ReflTransGen.refl
    | 2, _ => exact Relation.ReflTransGen.single l12
  exact Relation.ReflTransGen.trans (toOne i hi) (fromOne j hj)

theorem chain_connected_eq_of_middle_fails (A B C : Node) (P : Node → Bool)
    (hB : P B = false) (i j : Nat) (h : (chain A B C).connected P i j) : j = i := by
  have h1 : ¬ (chain A B C).sat P 1 := by
    intro hs
    rcases (chain_sat A B C P 1).1 hs with ⟨h, _⟩ | ⟨_, h⟩ | ⟨h, _⟩
    · omega
    · rw [hB] at h; exact Bool.noConfusion h
    · omega
  induction h with
  | refl => rfl
  | tail _ hl _ =>
    obtain ⟨hsa, hsb, hf⟩ := hl
    rw [chain_feeds, chain_feeds] at hf
    rcases hf with (⟨_, h⟩ | ⟨h, _⟩) | (⟨_, h⟩ | ⟨h, _⟩)
    · rw [h] at hsb; exact absurd hsb h1
    · rw [h] at hsa; exact absurd hsa h1
    · rw [h] at hsa; exact absurd hsa h1
    · rw [h] at hsb; exact absurd hsb h1

theorem pairwise_disjoint_common (groups : List (List NodePtr)) (x : NodePtr)
    (hd : groups.Pairwise (fun G H => ∀ p ∈ G, ∀ q ∈ H, p.addr ≠ q.addr))
    (hall : ∀ G ∈ groups, x ∈ G) (hne : groups ≠ []) : ∃ G, groups = [G] := by
  match groups, hd, hall, hne with
  | [G], _, _, _ => exact ⟨G, rfl⟩
  | G :: H :: rest, hd, hall, _ =>
    have h1 := (List.pairwise_cons.1 hd).1 H (by simp) x (hall G (by simp)) x
      (hall H (by simp))
    exact absurd rfl h1

theorem chain_ptr_mem (A B C : Node) (G : List NodePtr) (j : Nat) (hj : j < 3)
    (h0 : (NodePtr.mk 0 (some A)) ∈ G) (h1 : (NodePtr.mk 1 (some B)) ∈ G)
    (h2 : (NodePtr.mk 2 (some C)) ∈ G) : (chain A B C).ptr j ∈ G := by
  match j, hj with
  | 0, _ => exact h0
  | 1, _ => exact h1
  | 2, _ => exact h2

theorem maximalGroups_chain_all (A B C : Node) (P : Node → Bool)
    (hA : P A = true) (hB : P B = true) (hC : P C = true) :
    MaximalGroups (chain A B C) P
      [[NodePtr.mk 0 (some A), NodePtr.mk 1 (some B), NodePtr.mk 2 (some C)]] := by
  have s0 : (chain A B C).sat P 0 := (chain_sat A B C P 0).2 (Or.inl ⟨rfl, hA⟩)
  have s1 : (chain A B C).sat P 1 := (chain_sat A B C P 1).2 (Or.inr (Or.inl ⟨rfl, hB⟩))
  have s2 : (chain A B C).sat P 2 := (chain_sat A B C P 2).2 (Or.inr (Or.inr ⟨rfl, hC⟩))
  have hlt : ∀ p ∈ [NodePtr.mk 0 (some A), NodePtr.mk 1 (some B), NodePtr.mk 2 (some C)],
      p.addr < 3 := by
    intro p hp
    simp only [List.mem_cons, List.mem_singleton, List.not_mem_nil, or_false] at hp
    rcases hp with rfl | rfl | rfl <;> simp
  refine ⟨?_, ?_, ?_, ?_, ?_, ?_⟩
  · intro G hG; simp at hG; simp [hG]
  · intro G hG p hp
    simp only [List.mem_singleton] at hG
    subst hG
    simp only [List.mem_cons, List.mem_singleton, List.not_mem_nil, or_false] at hp
    rcases hp with rfl | rfl | rfl
    · exact ⟨rfl, s0⟩
    · exact ⟨rfl, s1⟩
    · exact ⟨rfl, s2⟩
  · intro G hG p hp q hq
    simp only [List.mem_singleton] at hG
    subst hG
    exact chain_connected_all A B C P hA hB hC _ _ (hlt p hp) (hlt q hq)
  · intro G hG p hp j hj
    simp only [List.mem_singleton] at hG
    subst hG
    exact chain_ptr_mem A B C _ j (chain_connected_lt A B C P _ j (hlt p hp) hj)
      (by simp) (by simp) (by simp)
  · exact List.pairwise_singleton _ _
  · intro i hi _
    exact ⟨_, List.mem_singleton.2 rfl,
      chain_ptr_mem A B C _ i (chain_sat_lt A B C P i hi) (by simp) (by simp) (by simp)⟩

theorem maximalGroups_chain_split (A B C : Node) (P : Node → Bool)
    (hA : P A = true) (hB : P B = false) (hC : P C = true) :
    MaximalGroups (chain A B C) P [[NodePtr.mk 0 (some A)], [NodePtr.mk 2 (some C)]] := by
  have s0 : (chain A B C).sat P 0 := (chain_sat A B C P 0).2 (Or.inl ⟨rfl, hA⟩)
  have s2 : (chain A B C).sat P 2 := (chain_sat A B C P 2).2 (Or.inr (Or.inr ⟨rfl, hC⟩))
  refine ⟨?_, ?_, ?_, ?_, ?_, ?_⟩
  · intro G hG
    simp only [List.mem_cons, List.mem_singleton, List.not_mem_nil, or_false] at hG
    rcases hG with rfl | rfl <;> simp
  · intro G hG p hp
    simp only [List.mem_cons, List.mem_singleton, List.not_mem_nil, or_false] at hG
    rcases hG with rfl | rfl
    · rw [List.mem_singleton.1 hp]; exact ⟨rfl, s0⟩
    · rw [List.mem_singleton.1 hp]; exact ⟨rfl, s2⟩
  · intro G hG p hp q hq
    simp only [List.mem_cons, List.mem_singleton, List.not_mem_nil, or_false] at hG
    rcases hG with rfl | rfl
    · rw [List.mem_singleton.1 hp, List.mem_singleton.1 hq]
      exact Relation.ReflTransGen.refl
    · rw [List.mem_singleton.1 hp, List.mem_singleton.1 hq]
      exact Relation.ReflTransGen.refl
  · intro G hG p hp j hj
    have hjp : j = p.addr := chain_connected_eq_of_middle_fails A B C P hB _ j hj
    simp only [List.mem_cons, List.mem_singleton, List.not_mem_nil, or_false] at hG
    rcases hG with rfl | rfl
    · rw [List.mem_singleton.1 hp] at hjp
      rw [hjp]; exact List.mem_singleton.2 rfl
    · rw [List.mem_singleton.1 hp] at hjp
      rw [hjp]; exact List.mem_singleton.2 rfl
  · refine List.pairwise_cons.2 ⟨?_, List.pairwise_singleton _ _⟩
    intro H hH p hp q hq
    rw [List.mem_singleton.1 hH] at hq
    rw [List.mem_singleton.1 hp, List.mem_singleton.1 hq]
    show (0 : Nat) ≠ 2
    omega
  · intro i _ hb
    obtain ⟨j, hne, hij⟩ := hb
    exact absurd (chain_connected_eq_of_middle_fails A B C P hB i j hij) hne

/-- C16: for every extractor that obeys the contract of section 6 on the linear
chain `A -> B -> C` (three operator nodes without null operands, at the
addresses 0, 1 and 2; their contents may coincide), the detector returns a
list of groups such that: if both classifiers hold for `A`, `B` and `C`, the
list is exactly one group and it contains the pointers to `A`, `B` and `C`;
if `B` fails one of the classifiers, no group contains both the pointer to `A`
and the pointer to `C`, and no group contains a pointer to `B`. -/
theorem detector_groups_on_chain (E : Extractor Graph) (A B C : Node) (st : State)
    (hE : ContractAt E (chain A B C) teller st)
    (hnn : ∀ nd ∈ (chain A B C).ops, ∀ v ∈ nd.inputs ++ nd.outputs, v ≠ none) :
    ∃ groups st', ElementwiseGroupDetector.call E (chain A B C) st = .ok (groups, st') ∧
      ((∀ nd ∈ [A, B, C], IsFusionGroupOp (some nd) = .ok true ∧
          (IsElementwiseOp (some nd) st).1 = true) →
        ∃ G, groups = [G] ∧ NodePtr.mk 0 (some A) ∈ G ∧ NodePtr.mk 1 (some B) ∈ G ∧
          NodePtr.mk 2 (some C) ∈ G) ∧
      (¬ (IsFusionGroupOp (some B) = .ok true ∧ (IsElementwiseOp (some B) st).1 = true) →
        (∀ G ∈ groups, ¬ ((∃ p ∈ G, p.addr = 0) ∧ ∃ q ∈ G, q.addr = 2)) ∧
          ∀ G ∈ groups, ∀ p ∈ G, p.addr ≠ 1) := by
  obtain ⟨groups, st', hrun, hmax⟩ :=
    hE _ (accepts st) (teller_decides_accepts (chain A B C) st hnn) rfl
  refine ⟨groups, st', hrun, ?_, ?_⟩
  · intro hall
    have hA : accepts st A = true := (accepts_eq_true_iff st A).2 (hall A (by simp))
    have hB : accepts st B = true := (accepts_eq_true_iff st B).2 (hall B (by simp))
    have hC : accepts st C = true := (accepts_eq_true_iff st C).2 (hall C (by simp))
    have conn := chain_connected_all A B C (accepts st) hA hB hC
    have s0 : (chain A B C).sat (accepts st) 0 :=
      (chain_sat A B C (accepts st) 0).2 (Or.inl ⟨rfl, hA⟩)
    have hAin : ∀ G ∈ groups, (chain A B C).ptr 0 ∈ G := by
      intro G hG
      cases hg : G with
      | nil => exact absurd hg (hmax.nonempty G hG)
      | cons p rest =>
        have hp : p ∈ G := by simp [hg]
        have hlt := chain_sat_lt A B C _ _ (hmax.members G hG p hp).2
        rw [← hg]
        exact hmax.maximal G hG p hp 0 (conn p.addr 0 hlt (by omega))
    have hne : groups ≠ [] := by
      obtain ⟨G, hG, _⟩ := hmax.reported 0 s0 ⟨1, by omega, conn 0 1 (by omega) (by omega)⟩
      exact List.ne_nil_of_mem hG
    obtain ⟨G, hG⟩ := pairwise_disjoint_common groups _ hmax.disjoint hAin hne
    have hGm : G ∈ groups := by rw [hG]; simp
    have hAG := hAin G hGm
    exact ⟨G, hG, hAG, hmax.maximal G hGm _ hAG 1 (conn 0 1 (by omega) (by omega)),
      hmax.maximal G hGm _ hAG 2 (conn 0 2 (by omega) (by omega))⟩
  · intro hfail
    have hB : accepts st B = false := by
      cases h : accepts st B with
      | false => rfl
      | true => exact absurd ((accepts_eq_true_iff st B).1 h) hfail
    constructor
    · rintro G hG ⟨⟨p, hp, hp0⟩, ⟨q, hq, hq2⟩⟩
      have := chain_connected_eq_of_middle_fails A B C _ hB _ _
        (hmax.connected G hG p hp q hq)
      omega
    · intro G hG p hp h1
      have hs := (hmax.members G hG p hp).2
      rw [h1] at hs
      rcases (chain_sat A B C _ 1).1 hs with ⟨h, _⟩ | ⟨_, h⟩ | ⟨h, _⟩
      · omega
      · rw [hB] at h; exact Bool.noConfusion h
      · omega

theorem decides_value (g : Graph) (Inv : State → Prop) (P : Node → Bool) (st : State)
    (hdec : Decides teller g Inv P) (hinv : Inv st) (nd : Node) (hnd : nd ∈ g.ops)
    (b : Bool) (s1 : State) (ht : teller (some nd) st = .ok (b, s1)) : P nd = b := by
  obtain ⟨s', h, _⟩ := hdec nd hnd st hinv
  rw [ht] at h
  injection h with h
  exact (congrArg Prod.fst h).symm

theorem chainExtractor_contract_all :
    ContractAt chainExtractor (chain (unaryOp "relu") (unaryOp "relu") (unaryOp "relu"))
      teller freshState := by
  intro Inv P hdec hinv
  have hA : P (unaryOp "relu") = true :=
    decides_value _ Inv P freshState hdec hinv _ (by simp [chain]) true _ rfl
  exact ⟨[[NodePtr.mk 0 (some (unaryOp "relu")), NodePtr.mk 1 (some (unaryOp "relu")),
      NodePtr.mk 2 (some (unaryOp "relu"))]],
    (GetElementwiseOpTypes freshState).2, rfl, maximalGroups_chain_all _ _ _ P hA hA hA⟩

theorem chainExtractor_contract_split :
    ContractAt chainExtractor (chain (unaryOp "relu") (unaryOp "conv2d") (unaryOp "relu"))
      teller freshState := by
  intro Inv P hdec hinv
  have hA : P (unaryOp "relu") = true :=
    decides_value _ Inv P freshState hdec hinv _ (by simp [chain]) true _ rfl
  have hB : P (unaryOp "conv2d") = false :=
    decides_value _ Inv P freshState hdec hinv _ (by simp [chain]) false _ rfl
  exact ⟨[[NodePtr.mk 0 (some (unaryOp "relu"))], [NodePtr.mk 2 (some (unaryOp "relu"))]],
    (GetElementwiseOpTypes freshState).2, rfl, maximalGroups_chain_split _ _ _ P hA hB hA⟩

theorem unaryOp_chain_no_null (a b c : String) :
    ∀ nd ∈ (chain (unaryOp a) (unaryOp b) (unaryOp c)).ops,
      ∀ v ∈ nd.inputs ++ nd.outputs, v ≠ none := by
  intro nd hnd v hv
  simp only [chain, List.mem_cons, List.mem_singleton, List.not_mem_nil, or_false] at hnd
  rcases hnd with rfl | rfl | rfl <;>
    · simp only [unaryOp, opNode, Node.inputs, Node.outputs, List.mem_append,
        List.mem_singleton, or_self] at hv
      rw [hv]; exact Option.some_ne_none _

/-- C16 (witness): the extractor that reports maximal runs obeys the contract
on the chains `relu -> relu -> relu` and `relu -> conv2d -> relu`, whose end
nodes have equal contents, with `relu` registered as elementwise; the detector
returns one group of three pointers for the first chain and two groups, the
pointer to the first `relu` and the pointer to the last, for the second. -/
theorem detector_groups_on_chain_witness :
    (ElementwiseGroupDetector.call chainExtractor
        (chain (unaryOp "relu") (unaryOp "relu") (unaryOp "relu")) freshState
      = .ok ([[NodePtr.mk 0 (some (unaryOp "relu")), NodePtr.mk 1 (some (unaryOp "relu")),
            NodePtr.mk 2 (some (unaryOp "relu"))]],
          (GetElementwiseOpTypes freshState).2) ∧
      ∃ groups st', ElementwiseGroupDetector.call chainExtractor
          (chain (unaryOp "relu") (unaryOp "relu") (unaryOp "relu")) freshState
            = .ok (groups, st') ∧
        ((∀ nd ∈ [unaryOp "relu", unaryOp "relu", unaryOp "relu"],
            IsFusionGroupOp (some nd) = .ok true ∧
              (IsElementwiseOp (some nd) freshState).1 = true) →
          ∃ G, groups = [G] ∧ NodePtr.mk 0 (some (unaryOp "relu")) ∈ G ∧
            NodePtr.mk 1 (some (unaryOp "relu")) ∈ G ∧
            NodePtr.mk 2 (some (unaryOp "relu")) ∈ G) ∧
        (¬ (IsFusionGroupOp (some (unaryOp "relu")) = .ok true ∧
            (IsElementwiseOp (some (unaryOp "relu")) freshState).1 = true) →
          (∀ G ∈ groups, ¬ ((∃ p ∈ G, p.addr = 0) ∧ ∃ q ∈ G, q.addr = 2)) ∧
            ∀ G ∈ groups, ∀ p ∈ G, p.addr ≠ 1)) ∧
    (ElementwiseGroupDetector.call chainExtractor
        (chain (unaryOp "relu") (unaryOp "conv2d") (unaryOp "relu")) freshState
      = .ok ([[NodePtr.mk 0 (some (unaryOp "relu"))], [NodePtr.mk 2 (some (unaryOp "relu"))]],
          (GetElementwiseOpTypes freshState).2) ∧
      ∃ groups st', ElementwiseGroupDetector.call chainExtractor
          (chain (unaryOp "relu") (unaryOp "conv2d") (unaryOp "relu")) freshState
            = .ok (groups, st') ∧
        ((∀ nd ∈ [unaryOp "relu", unaryOp "conv2d", unaryOp "relu"],
            IsFusionGroupOp (some nd) = .ok true ∧
              (IsElementwiseOp (some nd) freshState).1 = true) →
          ∃ G, groups = [G] ∧ NodePtr.mk 0 (some (unaryOp "relu")) ∈ G ∧
            NodePtr.mk 1 (some (unaryOp "conv2d")) ∈ G ∧
            NodePtr.mk 2 (some (unaryOp "relu")) ∈ G) ∧
        (¬ (IsFusionGroupOp (some (unaryOp "conv2d")) = .ok true ∧
            (IsElementwiseOp (some (unaryOp "conv2d")) freshState).1 = true) →
          (∀ G ∈ groups, ¬ ((∃ p ∈ G, p.addr = 0) ∧ ∃ q ∈ G, q.addr = 2)) ∧
            ∀ G ∈ groups, ∀ p ∈ G, p.addr ≠ 1)) :=
  ⟨⟨rfl, detector_groups_on_chain chainExtractor (unaryOp "relu") (unaryOp "relu")
      (unaryOp "relu") freshState chainExtractor_contract_all
      (unaryOp_chain_no_null "relu" "relu" "relu")⟩,
   ⟨rfl, detector_groups_on_chain chainExtractor (unaryOp "relu") (unaryOp "conv2d")
      (unaryOp "relu") freshState chainExtractor_contract_split
      (unaryOp_chain_no_null "relu" "conv2d" "relu")⟩⟩

end fusion_group

end paddle.framework.ir
